import Mathlib

/-!
Verification development for the connect-4 server (src/server/src/index.ts).

The server keeps three in-memory registries (onlineUsers, activeChallenges,
activeGames) and mutates them from socket event handlers.  We embed that
state shallowly: JS Maps become association lists keyed by strings, the
6 by 7 board becomes a list of lists of optional colors, handlers become
pure functions from the server state and the event payload to the new
state together with the list of emitted events, and setTimeout timers
become explicit timer records (a timer that was cleared can never fire,
so firing is modelled as enabled only while the record is present).
-/

/-- The two token colors; the code stores them as the strings
"red" and "yellow". -/
inductive Color
  | red
  | yellow
deriving DecidableEq, Repr

/-- The turn flip at the end of a successful non-terminal move:
currentTurn === "red" ? "yellow" : "red". -/
def flipTurn : Color → Color
  | Color.red => Color.yellow
  | Color.yellow => Color.red

/-- Value stored in game.winner: a color string or "draw" (null is
modelled by wrapping in Option). -/
inductive Winner
  | colorWin (c : Color)
  | draw
deriving DecidableEq, Repr

/-- One board cell: (string | null), null is none. -/
abbrev Cell := Option Color

/-- The board is a 6-element array of 7-element rows in the real program;
we keep the list-of-lists shape so out-of-range indexing is observable,
as it is in JS. -/
abbrev Board := List (List Cell)

/-- createEmptyBoard(): Array(6).fill(null).map(() => Array(7).fill(null)). -/
def createEmptyBoard : Board :=
  List.replicate 6 (List.replicate 7 (none : Cell))

/-- Boards of the running game always have 6 rows of 7 cells. -/
def wfBoard (b : Board) : Prop :=
  b.length = 6 ∧ ∀ row ∈ b, row.length = 7

instance : DecidablePred wfBoard := by
  intro b
  unfold wfBoard
  infer_instance

/-! ## Association-list model of JS Map -/

/-- Map.get: first binding of the key, if any. -/
def mapGet {α : Type} (m : List (String × α)) (k : String) : Option α :=
  (m.find? (fun p => p.1 == k)).map Prod.snd

/-- Map.set: replace the binding in place when the key is present,
append otherwise (JS Maps keep insertion order). -/
def mapSet {α : Type} (m : List (String × α)) (k : String) (v : α) : List (String × α) :=
  if (m.find? (fun p => p.1 == k)).isSome then
    m.map (fun p => if p.1 == k then (k, v) else p)
  else
    m ++ [(k, v)]

/-- Map.delete: drop every binding of the key (a well-formed map has at
most one); deleting an absent key is a no-op. -/
def mapDelete {α : Type} (m : List (String × α)) (k : String) : List (String × α) :=
  m.filter (fun p => p.1 != k)

/-! ## Board engine -/

/-- The test rowData[col] === null inside the drop-row search of the
makeMove handler: true only when row r exists and holds null at col. -/
def emptyAt (b : Board) (r c : Nat) : Bool :=
  match b[r]? with
  | some rowData =>
    match rowData[c]? with
    | some none => true
    | _ => false
  | none => false

/-- The for-loop of the makeMove handler scanning r = 5 down to 0 for the
first row whose cell in the column is null. -/
def findDropRowAux (b : Board) (col : Nat) : List Nat → Option Nat
  | [] => none
  | r :: rs => if emptyAt b r col then some r else findDropRowAux b col rs

/-- Row where a token dropped in the column lands: the greatest row index
whose cell is empty (the scan runs from row 5 downward). -/
def findDropRow (b : Board) (col : Nat) : Option Nat :=
  findDropRowAux b col [5, 4, 3, 2, 1, 0]

/-- targetRow[col] = playerColor: writes the cell when the row exists;
indices beyond the row length leave the board unchanged (the game only
ever writes in range). -/
def setCell (b : Board) (r c : Nat) (color : Color) : Board :=
  match b[r]? with
  | none => b
  | some rowData => b.set r (rowData.set c (some color))

/-- Cell lookup with JS-style out-of-range behaviour made explicit:
none when the row is missing, some none for a stored null. -/
def cellN (b : Board) (r c : Nat) : Option Cell :=
  match b[r]? with
  | none => none
  | some rowData => rowData[c]?

/-- True when the cell exists and holds a token. -/
def cellOccupied (b : Board) (r c : Nat) : Bool :=
  match cellN b r c with
  | some (some _) => true
  | _ => false

/-- The read performed by each step of the checkWinner walk: the placed
player's color when (r, c) is in bounds, the row exists and the cell
holds that color, and nothing otherwise (out of bounds, missing row,
null cell and other colors all stop the walk alike). -/
def cellAt (b : Board) (r c : Int) : Option Color :=
  if 0 ≤ r ∧ r < 6 ∧ 0 ≤ c ∧ c < 7 then
    match b[r.toNat]? with
    | none => none
    | some rowData =>
      match rowData[c.toNat]? with
      | some (some q) => some q
      | _ => none
  else none

/-- One while-loop of checkWinner: starting at (r, c), collect cells
while the loop condition holds and advance by d each time.  The combined
condition — in bounds, row present, cell equal to the player — is
exactly cellAt returning the player.  The fuel bounds the iteration
count; 7 steps always leave the 6 by 7 grid, so fuel 7 is never the
binding constraint. -/
def walkDir (b : Board) (player : Color) (d : Int × Int) : Nat → Int → Int → List (Int × Int)
  | 0, _, _ => []
  | Nat.succ fuel, r, c =>
    if cellAt b r c = some player then (r, c) :: walkDir b player d fuel (r + d.1) (c + d.2)
    else []

/-- The four axes checkWinner scans, each as its two opposite directions,
in the order of the code: horizontal, vertical, diagonal right,
diagonal left. -/
def directionPairs : List ((Int × Int) × (Int × Int)) :=
  [((0, 1), (0, -1)), ((1, 0), (-1, 0)), ((1, 1), (-1, -1)), ((1, -1), (-1, 1))]

/-- cells accumulated for one axis: the placed cell, then the run in the
first direction, then the run in the opposite direction. -/
def axisCells (b : Board) (player : Color) (row col : Nat) (d : (Int × Int) × (Int × Int)) :
    List (Int × Int) :=
  (((row : Int), (col : Int)) ::
      walkDir b player d.1 7 ((row : Int) + d.1.1) ((col : Int) + d.1.2)) ++
    walkDir b player d.2 7 ((row : Int) + d.2.1) ((col : Int) + d.2.2)

/-- The for-loop of checkWinner over the four axes: return the player and
the merged cells of the first axis whose run reaches length 4. -/
def checkWinnerLoop (b : Board) (player : Color) (row col : Nat) :
    List ((Int × Int) × (Int × Int)) → Option (Color × List (Int × Int))
  | [] => none
  | d :: ds =>
    if 4 ≤ (axisCells b player row col d).length then some (player, axisCells b player row col d)
    else checkWinnerLoop b player row col ds

/-- checkWinner(board, row, col): none when the row or the cell is
missing or empty (the two early returns of the function), otherwise the
first axis through (row, col) whose merged run reaches 4. -/
def checkWinner (b : Board) (row col : Nat) : Option (Color × List (Int × Int)) :=
  match cellN b row col with
  | some (some player) => checkWinnerLoop b player row col directionPairs
  | _ => none

/-- isBoardFull(board): the top row exists and has no null cell. -/
def isBoardFull (b : Board) : Bool :=
  match b[0]? with
  | none => false
  | some topRow => topRow.all (fun cell => cell.isSome)

/-! ## Server state and handlers -/

/-- Entry of the onlineUsers map. -/
structure OnlineUser where
  socketId : String
  userId : String
  username : String
deriving DecidableEq, Repr

/-- Entry of the activeChallenges map (the NodeJS timer handle is
modelled by a separate TimerRec). -/
structure Challenge where
  id : String
  fromSocket : String
  fromUsername : String
  fromUserId : String
  toSocket : String
  toUsername : String
  toUserId : String
deriving DecidableEq, Repr

/-- A pending setTimeout armed by sendChallenge: the callback closes over
the challenger socket and the target socket, and the delay is 10000 ms.
A record is removed both by clearTimeout and by firing, so firing is
possible only while the record is present. -/
structure TimerRec where
  challengeId : String
  fromSocket : String
  toSocket : String
  delayMs : Nat
deriving DecidableEq, Repr

/-- One side of game.players. -/
structure PlayerSlot where
  socketId : String
  userId : String
  username : String
deriving DecidableEq, Repr

/-- Entry of the activeGames map. -/
structure GameData where
  id : String
  board : Board
  currentTurn : Color
  redPlayer : PlayerSlot
  yellowPlayer : PlayerSlot
  winner : Option Winner
  winningCells : Option (List (Int × Int))
deriving DecidableEq, Repr

/-- The invalidMove messages of the makeMove handler, as tags. -/
inductive MoveRejection
  | notYourTurn
  | gameIsOver
  | invalidColumn
  | columnIsFull
deriving DecidableEq, Repr

/-- Where an event is sent: socket.emit targets one socket,
io.to(name).emit targets a room. -/
inductive EmitTarget
  | socket (sid : String)
  | room (name : String)
deriving DecidableEq, Repr

/-- Outbound events relevant to the modelled handlers (chat persistence
and message payload text are outside the model). -/
inductive OutMsg
  | onlineUsersList (users : List OnlineUser)
  | lobbyJoinNotice (username : String)
  | lobbyLeaveNotice (username : String)
  | challengeReceived (fromSocket fromUsername challengeId : String)
  | challengeAccepted (gameId : String)
  | challengeDeclined (declinerUsername : String)
  | challengeTimeoutMsg
  | gameStateMsg (board : Board) (currentTurn : Color) (red yellow : PlayerSlot)
      (winner : Option Winner) (winningCells : Option (List (Int × Int)))
  | gameOverMsg (winner : Winner) (winningCells : Option (List (Int × Int)))
  | opponentForfeited (username : String)
  | invalidMove (reason : MoveRejection)
deriving DecidableEq

/-- One emission: a target and a payload. -/
abbrev Emission := EmitTarget × OutMsg

/-- The whole mutable server state touched by the modelled handlers. -/
structure ServerState where
  onlineUsers : List (String × OnlineUser)
  joinedFlags : List String
  activeChallenges : List (String × Challenge)
  timers : List TimerRec
  activeGames : List (String × GameData)
deriving DecidableEq

/-- Server boot state: every registry empty. -/
def initialServerState : ServerState :=
  { onlineUsers := [], joinedFlags := [], activeChallenges := [], timers := [], activeGames := [] }

/-- The lobby room name. -/
def roomMain : String := "main"

/-- Fallback username the declineChallenge handler uses when the decliner
is not in the presence map. -/
def fallbackOpponentName : String := "Opponent"

/-- joinLobby handler: a socket that already joined is ignored entirely
(hasJoinedLobby guard); otherwise every other socket of the same userId
is evicted, the new entry is stored, and the lobby receives the updated
user list and a join notice. -/
def joinLobby (st : ServerState) (sid userId username : String) : ServerState × List Emission :=
  if sid ∈ st.joinedFlags then (st, [])
  else
    let cleaned := st.onlineUsers.filter (fun p => !(p.2.userId == userId && p.1 != sid))
    let users := mapSet cleaned sid ⟨sid, userId, username⟩
    ({ st with onlineUsers := users, joinedFlags := sid :: st.joinedFlags },
      [(EmitTarget.room roomMain, OutMsg.onlineUsersList (users.map Prod.snd)),
        (EmitTarget.room roomMain, OutMsg.lobbyJoinNotice username)])

/-- sendChallenge handler: silent return when either socket is absent
from onlineUsers; otherwise stores a challenge under the fresh id, arms
a 10000 ms timer and notifies the target socket. -/
def sendChallenge (st : ServerState) (sid toSid toUsername freshChallengeId : String) :
    ServerState × List Emission :=
  match mapGet st.onlineUsers sid, mapGet st.onlineUsers toSid with
  | some challenger, some opponent =>
    let ch : Challenge :=
      { id := freshChallengeId
        fromSocket := sid
        fromUsername := challenger.username
        fromUserId := challenger.userId
        toSocket := toSid
        toUsername := opponent.username
        toUserId := opponent.userId }
    ({ st with
        activeChallenges := mapSet st.activeChallenges freshChallengeId ch
        timers := ⟨freshChallengeId, sid, toSid, 10000⟩ :: st.timers },
      [(EmitTarget.socket toSid, OutMsg.challengeReceived sid challenger.username freshChallengeId)])
  | _, _ => (st, [])

/-- acceptChallenge handler: unknown challenge ids are ignored; a known
challenge is removed, its timer cleared, a fresh game created with the
challenger as red and the challenged player as yellow, and both the
acting socket and the socket named by the payload field from are sent
the new game id.  The handler never compares the acting socket with the
challenge's target. -/
def acceptChallenge (st : ServerState) (sid challengeId fromArg freshGameId : String) :
    ServerState × List Emission :=
  match mapGet st.activeChallenges challengeId with
  | none => (st, [])
  | some ch =>
    let game : GameData :=
      { id := freshGameId, board := createEmptyBoard, currentTurn := Color.red,
        redPlayer := ⟨ch.fromSocket, ch.fromUserId, ch.fromUsername⟩,
        yellowPlayer := ⟨ch.toSocket, ch.toUserId, ch.toUsername⟩,
        winner := none, winningCells := none }
    ({ st with
        activeChallenges := mapDelete st.activeChallenges challengeId,
        timers := st.timers.filter (fun t => t.challengeId != challengeId),
        activeGames := mapSet st.activeGames freshGameId game },
      [(EmitTarget.socket sid, OutMsg.challengeAccepted freshGameId),
        (EmitTarget.socket fromArg, OutMsg.challengeAccepted freshGameId)])

/-- declineChallenge handler: unknown ids ignored; otherwise the
challenge is removed, its timer cleared, and the socket named by the
payload field from is told the decliner's username (or a fallback). -/
def declineChallenge (st : ServerState) (sid challengeId fromArg : String) :
    ServerState × List Emission :=
  match mapGet st.activeChallenges challengeId with
  | none => (st, [])
  | some _ =>
    ({ st with
        activeChallenges := mapDelete st.activeChallenges challengeId,
        timers := st.timers.filter (fun t => t.challengeId != challengeId) },
      [(EmitTarget.socket fromArg,
        OutMsg.challengeDeclined ((mapGet st.onlineUsers sid).elim fallbackOpponentName
          OnlineUser.username))])

/-- The challenge timeout callback firing: possible only while the timer
record is still armed (clearTimeout removes it atomically with the
challenge).  It notifies both closed-over sockets and deletes the
challenge. -/
def fireChallengeTimeout (st : ServerState) (challengeId : String) :
    ServerState × List Emission :=
  match st.timers.find? (fun t => t.challengeId == challengeId) with
  | none => (st, [])
  | some t =>
    ({ st with
        activeChallenges := mapDelete st.activeChallenges challengeId,
        timers := st.timers.filter (fun tt => tt.challengeId != challengeId) },
      [(EmitTarget.socket t.fromSocket, OutMsg.challengeTimeoutMsg),
        (EmitTarget.socket t.toSocket, OutMsg.challengeTimeoutMsg)])

/-- joinGame handler: rebinds the socket id of whichever color matches
the userId and replays the game state to the game room; unknown game ids
and non-participant userIds are ignored (logged only). -/
def joinGame (st : ServerState) (sid gameId userId : String) : ServerState × List Emission :=
  match mapGet st.activeGames gameId with
  | none => (st, [])
  | some game =>
    if game.redPlayer.userId == userId then
      let g := { game with redPlayer := { game.redPlayer with socketId := sid } }
      ({ st with activeGames := mapSet st.activeGames gameId g },
        [(EmitTarget.room gameId,
          OutMsg.gameStateMsg g.board g.currentTurn g.redPlayer g.yellowPlayer g.winner
            g.winningCells)])
    else if game.yellowPlayer.userId == userId then
      let g := { game with yellowPlayer := { game.yellowPlayer with socketId := sid } }
      ({ st with activeGames := mapSet st.activeGames gameId g },
        [(EmitTarget.room gameId,
          OutMsg.gameStateMsg g.board g.currentTurn g.redPlayer g.yellowPlayer g.winner
            g.winningCells)])
    else (st, [])

/-- playerColor resolution of the makeMove and forfeitGame handlers: the
acting socket is red exactly when it matches the red player's stored
socket id, and yellow in every other case (including sockets that are
party to no game). -/
def resolveColor (game : GameData) (sid : String) : Color :=
  if game.redPlayer.socketId == sid then Color.red else Color.yellow

/-- The body of the makeMove handler for a game that was found in the
map: the guard chain (turn, finished game, column bounds, full column)
rejects with an invalidMove event to the acting socket only; a passing
move writes the single landing cell, evaluates the winner on the
updated board and either finishes the game or flips the turn,
broadcasting to the game room. -/
def makeMoveOnGame (game : GameData) (sid : String) (col : Int) : GameData × List Emission :=
  let playerColor := resolveColor game sid
  if game.currentTurn ≠ playerColor then
    (game, [(EmitTarget.socket sid, OutMsg.invalidMove MoveRejection.notYourTurn)])
  else if game.winner.isSome then
    (game, [(EmitTarget.socket sid, OutMsg.invalidMove MoveRejection.gameIsOver)])
  else if col < 0 ∨ 7 ≤ col then
    (game, [(EmitTarget.socket sid, OutMsg.invalidMove MoveRejection.invalidColumn)])
  else
    match findDropRow game.board col.toNat with
    | none => (game, [(EmitTarget.socket sid, OutMsg.invalidMove MoveRejection.columnIsFull)])
    | some row =>
      let board := setCell game.board row col.toNat playerColor
      match checkWinner board row col.toNat with
      | some (w, cells) =>
        let g := { game with
          board := board
          winner := some (Winner.colorWin w)
          winningCells := some cells }
        (g, [(EmitTarget.room game.id,
              OutMsg.gameStateMsg g.board g.currentTurn g.redPlayer g.yellowPlayer g.winner
                g.winningCells),
             (EmitTarget.room game.id, OutMsg.gameOverMsg (Winner.colorWin w) (some cells))])
      | none =>
        if isBoardFull board then
          let g := { game with board := board, winner := some Winner.draw }
          (g, [(EmitTarget.room game.id,
                OutMsg.gameStateMsg g.board g.currentTurn g.redPlayer g.yellowPlayer g.winner
                  none),
               (EmitTarget.room game.id, OutMsg.gameOverMsg Winner.draw none)])
        else
          let g := { game with board := board, currentTurn := flipTurn game.currentTurn }
          (g, [(EmitTarget.room game.id,
                OutMsg.gameStateMsg g.board g.currentTurn g.redPlayer g.yellowPlayer g.winner
                  g.winningCells)])

/-- makeMove handler: unknown game ids are silently ignored; otherwise
the per-game body runs and the (possibly updated) game is stored back. -/
def makeMove (st : ServerState) (sid gameId : String) (col : Int) :
    ServerState × List Emission :=
  match mapGet st.activeGames gameId with
  | none => (st, [])
  | some game =>
    let r := makeMoveOnGame game sid col
    ({ st with activeGames := mapSet st.activeGames gameId r.1 }, r.2)

/-- forfeitGame handler: unknown game ids ignored; otherwise the acting
socket is the forfeiter when it matches red and yellow otherwise, the
opponent's stored socket alone is notified, and the session is deleted
immediately. -/
def forfeitGame (st : ServerState) (sid gameId : String) : ServerState × List Emission :=
  match mapGet st.activeGames gameId with
  | none => (st, [])
  | some game =>
    let forfeiter := if game.redPlayer.socketId == sid then game.redPlayer else game.yellowPlayer
    let opponent := if game.redPlayer.socketId == sid then game.yellowPlayer else game.redPlayer
    ({ st with activeGames := mapDelete st.activeGames gameId },
      [(EmitTarget.socket opponent.socketId, OutMsg.opponentForfeited forfeiter.username)])

/-- disconnect handler: sockets absent from onlineUsers are ignored;
otherwise the presence entry is removed, every pending challenge
involving the socket has its timer cleared, its other party notified
with challengeTimeout and the challenge deleted, and the lobby receives
the updated list and a leave notice. -/
def disconnect (st : ServerState) (sid : String) : ServerState × List Emission :=
  match mapGet st.onlineUsers sid with
  | none => (st, [])
  | some user =>
    let users := mapDelete st.onlineUsers sid
    let affected := st.activeChallenges.filter
      (fun p => p.2.fromSocket == sid || p.2.toSocket == sid)
    let challenges := st.activeChallenges.filter
      (fun p => !(p.2.fromSocket == sid || p.2.toSocket == sid))
    let timers := st.timers.filter (fun t => !(affected.any (fun p => p.1 == t.challengeId)))
    let chEmits : List Emission := affected.map (fun p =>
      (EmitTarget.socket (if p.2.fromSocket == sid then p.2.toSocket else p.2.fromSocket),
        OutMsg.challengeTimeoutMsg))
    ({ st with onlineUsers := users, activeChallenges := challenges, timers := timers },
      chEmits ++
        [(EmitTarget.room roomMain, OutMsg.onlineUsersList (users.map Prod.snd)),
          (EmitTarget.room roomMain, OutMsg.lobbyLeaveNotice user.username)])

/-- Inbound events of the modelled handlers; fresh random ids appear as
event data. -/
inductive InEvent
  | joinLobbyEv (sid userId username : String)
  | sendChallengeEv (sid toSid toUsername freshChallengeId : String)
  | acceptChallengeEv (sid challengeId fromArg freshGameId : String)
  | declineChallengeEv (sid challengeId fromArg : String)
  | challengeTimeoutEv (challengeId : String)
  | joinGameEv (sid gameId userId : String)
  | makeMoveEv (sid gameId : String) (col : Int)
  | forfeitGameEv (sid gameId : String)
  | disconnectEv (sid : String)
deriving DecidableEq

/-- Dispatch of one inbound event to its handler. -/
def handleEvent (st : ServerState) : InEvent → ServerState × List Emission
  | InEvent.joinLobbyEv sid userId username => joinLobby st sid userId username
  | InEvent.sendChallengeEv sid toSid toUsername fid => sendChallenge st sid toSid toUsername fid
  | InEvent.acceptChallengeEv sid chId fromArg gid => acceptChallenge st sid chId fromArg gid
  | InEvent.declineChallengeEv sid chId fromArg => declineChallenge st sid chId fromArg
  | InEvent.challengeTimeoutEv chId => fireChallengeTimeout st chId
  | InEvent.joinGameEv sid gameId userId => joinGame st sid gameId userId
  | InEvent.makeMoveEv sid gameId col => makeMove st sid gameId col
  | InEvent.forfeitGameEv sid gameId => forfeitGame st sid gameId
  | InEvent.disconnectEv sid => disconnect st sid

/-- State after one event. -/
def serverStep (st : ServerState) (ev : InEvent) : ServerState :=
  (handleEvent st ev).1

/-- State after a sequence of events (events are handled one at a time
in arrival order). -/
def serverRun (st : ServerState) (evs : List InEvent) : ServerState :=
  evs.foldl serverStep st

/-! ## Association-map lemmas -/

theorem mapGet_cons {α : Type} (p : String × α) (m : List (String × α)) (k : String) :
    mapGet (p :: m) k = if p.1 = k then some p.2 else mapGet m k := by
  by_cases h : p.1 = k
  · rw [if_pos h]
    unfold mapGet
    rw [List.find?_cons_of_pos _ (by simp [h])]
    rfl
  · rw [if_neg h]
    unfold mapGet
    rw [List.find?_cons_of_neg _ (by simp [h])]

theorem mapGet_append_right {α : Type} (m l : List (String × α)) (k : String)
    (h : mapGet m k = none) : mapGet (m ++ l) k = mapGet l k := by
  induction m with
  | nil => simp
  | cons p m ih =>
    rw [mapGet_cons] at h
    by_cases hp : p.1 = k
    · rw [if_pos hp] at h
      exact absurd h (by simp)
    · rw [if_neg hp] at h
      rw [List.cons_append, mapGet_cons, if_neg hp]
      exact ih h

theorem mapGet_append_single_ne {α : Type} (m : List (String × α)) (k k' : String) (v : α)
    (h : k ≠ k') : mapGet (m ++ [(k, v)]) k' = mapGet m k' := by
  induction m with
  | nil => simp [mapGet_cons, h]
  | cons p m ih =>
    rw [List.cons_append, mapGet_cons, mapGet_cons, ih]

theorem mapGet_overwrite_self {α : Type} (m : List (String × α)) (k : String) (v : α)
    (h : (m.find? (fun p => p.1 == k)).isSome) :
    mapGet (m.map (fun p => if p.1 == k then (k, v) else p)) k = some v := by
  induction m with
  | nil => simp at h
  | cons p m ih =>
    rw [List.map_cons]
    by_cases hp : p.1 = k
    · rw [if_pos (by simp [hp]), mapGet_cons]
      simp
    · rw [if_neg (by simp [hp]), mapGet_cons, if_neg hp]
      rw [List.find?_cons_of_neg _ (by simp [hp])] at h
      exact ih h

theorem mapGet_overwrite_ne {α : Type} (m : List (String × α)) (k k' : String) (v : α)
    (h : k ≠ k') :
    mapGet (m.map (fun p => if p.1 == k then (k, v) else p)) k' = mapGet m k' := by
  induction m with
  | nil => rfl
  | cons p m ih =>
    rw [List.map_cons]
    by_cases hp : p.1 = k
    · rw [if_pos (by simp [hp]), mapGet_cons, mapGet_cons, if_neg h]
      have : ¬ p.1 = k' := by rw [hp]; exact h
      rw [if_neg this]
      exact ih
    · rw [if_neg (by simp [hp]), mapGet_cons, mapGet_cons, ih]

theorem mapGet_set_self {α : Type} (m : List (String × α)) (k : String) (v : α) :
    mapGet (mapSet m k v) k = some v := by
  unfold mapSet
  by_cases hf : (m.find? (fun p => p.1 == k)).isSome
  · rw [if_pos hf]
    exact mapGet_overwrite_self m k v hf
  · rw [if_neg hf]
    have hm : mapGet m k = none := by
      unfold mapGet
      rw [Option.not_isSome_iff_eq_none] at hf
      rw [hf]
      rfl
    rw [mapGet_append_right m _ k hm, mapGet_cons]
    simp

theorem mapGet_set_ne {α : Type} (m : List (String × α)) (k k' : String) (v : α)
    (h : k ≠ k') : mapGet (mapSet m k v) k' = mapGet m k' := by
  unfold mapSet
  by_cases hf : (m.find? (fun p => p.1 == k)).isSome
  · rw [if_pos hf]
    exact mapGet_overwrite_ne m k k' v h
  · rw [if_neg hf]
    exact mapGet_append_single_ne m k k' v h

theorem mapGet_delete_self {α : Type} (m : List (String × α)) (k : String) :
    mapGet (mapDelete m k) k = none := by
  unfold mapDelete
  induction m with
  | nil => rfl
  | cons p m ih =>
    rw [List.filter_cons]
    by_cases hp : p.1 = k
    · rw [if_neg (by simp [hp])]
      exact ih
    · rw [if_pos (by simp [hp]), mapGet_cons, if_neg hp]
      exact ih

theorem mapGet_delete_ne {α : Type} (m : List (String × α)) (k k' : String)
    (h : k ≠ k') : mapGet (mapDelete m k) k' = mapGet m k' := by
  unfold mapDelete
  induction m with
  | nil => rfl
  | cons p m ih =>
    rw [List.filter_cons]
    by_cases hp : p.1 = k
    · rw [if_neg (by simp [hp]), mapGet_cons]
      have : ¬ p.1 = k' := by rw [hp]; exact h
      rw [if_neg this]
      exact ih
    · rw [if_pos (by simp [hp]), mapGet_cons, mapGet_cons, ih]

theorem mapGet_filter_none {α : Type} (m : List (String × α)) (f : String × α → Bool)
    (k : String) (h : mapGet m k = none) : mapGet (m.filter f) k = none := by
  induction m with
  | nil => rfl
  | cons p m ih =>
    rw [mapGet_cons] at h
    by_cases hp : p.1 = k
    · rw [if_pos hp] at h
      exact absurd h (by simp)
    · rw [if_neg hp] at h
      rw [List.filter_cons]
      by_cases hfp : f p
      · rw [if_pos hfp, mapGet_cons, if_neg hp]
        exact ih h
      · rw [if_neg hfp]
        exact ih h

theorem mapGet_isSome_iff {α : Type} (m : List (String × α)) (k : String) :
    (mapGet m k).isSome ↔ ∃ p ∈ m, p.1 = k := by
  unfold mapGet
  rw [Option.isSome_map']
  rw [List.find?_isSome]
  constructor
  · rintro ⟨p, hp, he⟩
    exact ⟨p, hp, by simpa using he⟩
  · rintro ⟨p, hp, he⟩
    exact ⟨p, hp, by simpa using he⟩

/-! ## Board-engine lemmas -/

theorem cellN_eq_row (b : Board) (r c : Nat) (rowData : List Cell)
    (h : b[r]? = some rowData) : cellN b r c = rowData[c]? := by
  unfold cellN
  rw [h]

theorem cellN_row_missing (b : Board) (r c : Nat) (h : b[r]? = none) :
    cellN b r c = none := by
  unfold cellN
  rw [h]

theorem setCell_eq_row (b : Board) (r c : Nat) (color : Color) (rowData : List Cell)
    (h : b[r]? = some rowData) :
    setCell b r c color = b.set r (rowData.set c (some color)) := by
  unfold setCell
  rw [h]

theorem setCell_row_missing (b : Board) (r c : Nat) (color : Color)
    (h : b[r]? = none) : setCell b r c color = b := by
  unfold setCell
  rw [h]

theorem emptyAt_iff_cellN (b : Board) (r c : Nat) :
    emptyAt b r c = true ↔ cellN b r c = some none := by
  unfold emptyAt
  cases hb : b[r]? with
  | none => rw [cellN_row_missing b r c hb]; simp
  | some rowData =>
    rw [cellN_eq_row b r c rowData hb]
    cases hc : rowData[c]? with
    | none => simp only [hc]; simp
    | some cell =>
      cases cell with
      | none => simp only [hc]
      | some q => simp only [hc]; simp

theorem wfBoard_row (b : Board) (h : wfBoard b) (r : Nat) (hr : r < 6) :
    ∃ rowData, b[r]? = some rowData ∧ rowData.length = 7 := by
  obtain ⟨hlen, hrow⟩ := h
  have hr' : r < b.length := by omega
  refine ⟨b[r], ?_, ?_⟩
  · exact List.getElem?_eq_getElem hr'
  · exact hrow _ (List.getElem_mem hr')

theorem wfBoard_cellN (b : Board) (h : wfBoard b) (r c : Nat) (hr : r < 6) (hc : c < 7) :
    ∃ cell, cellN b r c = some cell := by
  obtain ⟨rowData, hrow, hlen⟩ := wfBoard_row b h r hr
  have hc7 : c < rowData.length := by omega
  refine ⟨rowData[c], ?_⟩
  rw [cellN_eq_row b r c rowData hrow]
  exact List.getElem?_eq_getElem hc7

theorem emptyAt_false_occupied (b : Board) (h : wfBoard b) (r c : Nat) (hr : r < 6)
    (hc : c < 7) (he : emptyAt b r c = false) : cellOccupied b r c = true := by
  obtain ⟨cell, hcell⟩ := wfBoard_cellN b h r c hr hc
  cases cell with
  | none =>
    rw [← emptyAt_iff_cellN] at hcell
    rw [hcell] at he
    exact absurd he (by simp)
  | some q =>
    unfold cellOccupied
    rw [hcell]

theorem cellOccupied_not_emptyAt (b : Board) (r c : Nat)
    (h : cellOccupied b r c = true) : emptyAt b r c = false := by
  unfold cellOccupied at h
  cases hc : cellN b r c with
  | none => rw [hc] at h; simp at h
  | some cell =>
    cases cell with
    | none => rw [hc] at h; simp at h
    | some q =>
      cases he : emptyAt b r c
      · rfl
      · rw [emptyAt_iff_cellN] at he
        rw [he] at hc
        cases hc

/-- Every row index the drop-scan returns is at most 5, has an empty cell
in the column, and every greater row index does not. -/
theorem findDropRow_spec_some (b : Board) (col r : Nat)
    (h : findDropRow b col = some r) :
    r ≤ 5 ∧ emptyAt b r col = true ∧
      ∀ r', r < r' → r' ≤ 5 → emptyAt b r' col = false := by
  unfold findDropRow at h
  simp only [findDropRowAux] at h
  by_cases h5 : emptyAt b 5 col = true
  · rw [if_pos h5] at h
    injection h with h
    subst h
    exact ⟨by omega, h5, fun r' h1 h2 => by omega⟩
  · rw [if_neg h5] at h
    rw [Bool.not_eq_true] at h5
    by_cases h4 : emptyAt b 4 col = true
    · rw [if_pos h4] at h
      injection h with h
      subst h
      refine ⟨by omega, h4, fun r' h1 h2 => ?_⟩
      have : r' = 5 := by omega
      rw [this]; exact h5
    · rw [if_neg h4] at h
      rw [Bool.not_eq_true] at h4
      by_cases h3 : emptyAt b 3 col = true
      · rw [if_pos h3] at h
        injection h with h
        subst h
        refine ⟨by omega, h3, fun r' ha hb => ?_⟩
        interval_cases r' <;> assumption
      · rw [if_neg h3] at h
        rw [Bool.not_eq_true] at h3
        by_cases h2 : emptyAt b 2 col = true
        · rw [if_pos h2] at h
          injection h with h
          subst h
          refine ⟨by omega, h2, fun r' ha hb => ?_⟩
          interval_cases r' <;> assumption
        · rw [if_neg h2] at h
          rw [Bool.not_eq_true] at h2
          by_cases h1 : emptyAt b 1 col = true
          · rw [if_pos h1] at h
            injection h with h
            subst h
            refine ⟨by omega, h1, fun r' ha hb => ?_⟩
            interval_cases r' <;> assumption
          · rw [if_neg h1] at h
            rw [Bool.not_eq_true] at h1
            by_cases h0 : emptyAt b 0 col = true
            · rw [if_pos h0] at h
              injection h with h
              subst h
              refine ⟨by omega, h0, fun r' ha hb => ?_⟩
              interval_cases r' <;> assumption
            · rw [if_neg h0] at h
              cases h

/-- Conversely the scan lands exactly on the greatest empty row index. -/
theorem findDropRow_of_spec (b : Board) (col r : Nat) (hr : r ≤ 5)
    (he : emptyAt b r col = true)
    (habove : ∀ r', r < r' → r' ≤ 5 → emptyAt b r' col = false) :
    findDropRow b col = some r := by
  unfold findDropRow
  simp only [findDropRowAux]
  interval_cases r
  · rw [if_neg (by rw [habove 5 (by omega) (by omega)]; simp),
      if_neg (by rw [habove 4 (by omega) (by omega)]; simp),
      if_neg (by rw [habove 3 (by omega) (by omega)]; simp),
      if_neg (by rw [habove 2 (by omega) (by omega)]; simp),
      if_neg (by rw [habove 1 (by omega) (by omega)]; simp),
      if_pos he]
  · rw [if_neg (by rw [habove 5 (by omega) (by omega)]; simp),
      if_neg (by rw [habove 4 (by omega) (by omega)]; simp),
      if_neg (by rw [habove 3 (by omega) (by omega)]; simp),
      if_neg (by rw [habove 2 (by omega) (by omega)]; simp),
      if_pos he]
  · rw [if_neg (by rw [habove 5 (by omega) (by omega)]; simp),
      if_neg (by rw [habove 4 (by omega) (by omega)]; simp),
      if_neg (by rw [habove 3 (by omega) (by omega)]; simp),
      if_pos he]
  · rw [if_neg (by rw [habove 5 (by omega) (by omega)]; simp),
      if_neg (by rw [habove 4 (by omega) (by omega)]; simp),
      if_pos he]
  · rw [if_neg (by rw [habove 5 (by omega) (by omega)]; simp),
      if_pos he]
  · rw [if_pos he]

/-- When every row of the column is occupied the scan fails. -/
theorem findDropRow_none (b : Board) (col : Nat)
    (h : ∀ r, r ≤ 5 → emptyAt b r col = false) : findDropRow b col = none := by
  unfold findDropRow
  simp only [findDropRowAux]
  rw [if_neg (by rw [h 5 (by omega)]; simp),
    if_neg (by rw [h 4 (by omega)]; simp),
    if_neg (by rw [h 3 (by omega)]; simp),
    if_neg (by rw [h 2 (by omega)]; simp),
    if_neg (by rw [h 1 (by omega)]; simp),
    if_neg (by rw [h 0 (by omega)]; simp)]

theorem setCell_wf (b : Board) (r c : Nat) (color : Color) (h : wfBoard b) :
    wfBoard (setCell b r c color) := by
  unfold setCell
  cases hb : b[r]? with
  | none => exact h
  | some rowData =>
    obtain ⟨hlen, hrow⟩ := h
    constructor
    · rw [List.length_set]; exact hlen
    · intro row hmem
      rcases List.mem_or_eq_of_mem_set hmem with hmem' | heq
      · exact hrow _ hmem'
      · rw [heq, List.length_set]
        exact hrow rowData (by
          have := List.getElem?_eq_some_iff.1 hb
          obtain ⟨hlt, hget⟩ := this
          rw [← hget]
          exact List.getElem_mem hlt)

theorem setCell_cellN_same (b : Board) (r c : Nat) (color : Color) (h : wfBoard b)
    (hr : r < 6) (hc : c < 7) :
    cellN (setCell b r c color) r c = some (some color) := by
  obtain ⟨rowData, hrow, hlen⟩ := wfBoard_row b h r hr
  have hblen : b.length = 6 := h.1
  rw [setCell_eq_row b r c color rowData hrow]
  rw [cellN_eq_row _ r c (rowData.set c (some color))
    (List.getElem?_set_self (by omega))]
  rw [List.getElem?_set_self (by omega)]

theorem cellN_congr_row (b₁ b₂ : Board) (r c : Nat) (h : b₁[r]? = b₂[r]?) :
    cellN b₁ r c = cellN b₂ r c := by
  unfold cellN
  rw [h]

theorem setCell_cellN_other (b : Board) (r c : Nat) (color : Color)
    (r' c' : Nat) (hne : ¬(r' = r ∧ c' = c)) :
    cellN (setCell b r c color) r' c' = cellN b r' c' := by
  cases hb : b[r]? with
  | none => rw [setCell_row_missing b r c color hb]
  | some rowData =>
    rw [setCell_eq_row b r c color rowData hb]
    have hrlen : r < b.length := (List.getElem?_eq_some_iff.1 hb).1
    by_cases hrr : r' = r
    · subst hrr
      have hcc : ¬ c' = c := fun hcv => hne ⟨rfl, hcv⟩
      rw [cellN_eq_row _ r' c' (rowData.set c (some color))
        (List.getElem?_set_self (by omega))]
      rw [cellN_eq_row b r' c' rowData hb]
      exact List.getElem?_set_ne (by omega)
    · exact cellN_congr_row _ b r' c' (List.getElem?_set_ne (by omega))

/-- A failed scan means every row of the column is occupied. -/
theorem findDropRow_none_spec (b : Board) (col : Nat)
    (h : findDropRow b col = none) : ∀ r, r ≤ 5 → emptyAt b r col = false := by
  intro r hr
  cases he : emptyAt b r col
  · rfl
  · exfalso
    unfold findDropRow at h
    simp only [findDropRowAux] at h
    interval_cases r <;> simp_all <;> split_ifs at h

/-- With the guards passed and a landing row found, every branch of the
makeMove body stores the board with exactly the landing cell written. -/
theorem makeMoveOnGame_board_eq (game : GameData) (sid : String) (col : Int) (row : Nat)
    (hturn : game.currentTurn = resolveColor game sid)
    (hwin : game.winner = none)
    (hcol : ¬(col < 0 ∨ 7 ≤ col))
    (hdrop : findDropRow game.board col.toNat = some row) :
    (makeMoveOnGame game sid col).1.board =
      setCell game.board row col.toNat (resolveColor game sid) := by
  unfold makeMoveOnGame
  have hne : ¬(game.currentTurn ≠ resolveColor game sid) := by rw [hturn]; simp
  have hws : ¬(game.winner.isSome = true) := by rw [hwin]; simp
  rw [if_neg hne, if_neg hws, if_neg hcol, hdrop]
  dsimp only
  cases hcw : checkWinner (setCell game.board row col.toNat (resolveColor game sid)) row
      col.toNat with
  | some p =>
    cases p with
    | mk w cells => rfl
  | none =>
    by_cases hf : isBoardFull (setCell game.board row col.toNat (resolveColor game sid)) = true
    · rw [if_pos hf]
    · rw [if_neg hf]

/-- With the guards passed but the column full, the move is rejected with
the column-full message to the acting socket and the game unchanged. -/
theorem makeMoveOnGame_columnFull (game : GameData) (sid : String) (col : Int)
    (hturn : game.currentTurn = resolveColor game sid)
    (hwin : game.winner = none)
    (hcol : ¬(col < 0 ∨ 7 ≤ col))
    (hdrop : findDropRow game.board col.toNat = none) :
    makeMoveOnGame game sid col =
      (game, [(EmitTarget.socket sid, OutMsg.invalidMove MoveRejection.columnIsFull)]) := by
  unfold makeMoveOnGame
  have hne : ¬(game.currentTurn ≠ resolveColor game sid) := by rw [hturn]; simp
  have hws : ¬(game.winner.isSome = true) := by rw [hwin]; simp
  rw [if_neg hne, if_neg hws, if_neg hcol, hdrop]

/-- Wrong-turn rejection branch of the makeMove body. -/
theorem makeMoveOnGame_notYourTurn (game : GameData) (sid : String) (col : Int)
    (h : game.currentTurn ≠ resolveColor game sid) :
    makeMoveOnGame game sid col =
      (game, [(EmitTarget.socket sid, OutMsg.invalidMove MoveRejection.notYourTurn)]) := by
  unfold makeMoveOnGame
  rw [if_pos h]

/-- Finished-game rejection branch of the makeMove body. -/
theorem makeMoveOnGame_gameOver (game : GameData) (sid : String) (col : Int)
    (ht : game.currentTurn = resolveColor game sid) (hw : game.winner.isSome = true) :
    makeMoveOnGame game sid col =
      (game, [(EmitTarget.socket sid, OutMsg.invalidMove MoveRejection.gameIsOver)]) := by
  unfold makeMoveOnGame
  have hne : ¬(game.currentTurn ≠ resolveColor game sid) := by rw [ht]; simp
  rw [if_neg hne, if_pos hw]

/-- Out-of-range column rejection branch of the makeMove body. -/
theorem makeMoveOnGame_invalidColumn (game : GameData) (sid : String) (col : Int)
    (ht : game.currentTurn = resolveColor game sid) (hw : game.winner = none)
    (hc : col < 0 ∨ 7 ≤ col) :
    makeMoveOnGame game sid col =
      (game, [(EmitTarget.socket sid, OutMsg.invalidMove MoveRejection.invalidColumn)]) := by
  unfold makeMoveOnGame
  have hne : ¬(game.currentTurn ≠ resolveColor game sid) := by rw [ht]; simp
  have hws : ¬(game.winner.isSome = true) := by rw [hw]; simp
  rw [if_neg hne, if_neg hws, if_pos hc]

/-- C1: for every 6 by 7 board and every column index in [0,7), under the
guards of the makeMove handler (the requester's color has the turn and
the game has no winner), the drop lands in the lowest empty row of the
column — the greatest row index whose cell is empty — writing exactly
that one cell, and when the column has no empty cell the move is
rejected with the column-full message to the acting socket and the game
is unchanged. -/
theorem claim_C1 (game : GameData) (sid : String) (col : Int)
    (hwf : wfBoard game.board)
    (hturn : game.currentTurn = resolveColor game sid)
    (hwin : game.winner = none)
    (hc0 : 0 ≤ col) (hc7 : col < 7) :
    ((∃ r, r ≤ 5 ∧ emptyAt game.board r col.toNat = true) →
      ∃ r₀, r₀ ≤ 5 ∧ emptyAt game.board r₀ col.toNat = true ∧
        ∀ r', r₀ < r' → r' ≤ 5 → emptyAt game.board r' col.toNat = false) ∧
    (∀ r₀ : Nat, r₀ ≤ 5 → emptyAt game.board r₀ col.toNat = true →
      (∀ r', r₀ < r' → r' ≤ 5 → emptyAt game.board r' col.toNat = false) →
      (makeMoveOnGame game sid col).1.board =
          setCell game.board r₀ col.toNat (resolveColor game sid) ∧
        cellN (makeMoveOnGame game sid col).1.board r₀ col.toNat =
          some (some (resolveColor game sid)) ∧
        ∀ r c, ¬(r = r₀ ∧ c = col.toNat) →
          cellN (makeMoveOnGame game sid col).1.board r c = cellN game.board r c) ∧
    ((∀ r, r ≤ 5 → emptyAt game.board r col.toNat = false) →
      makeMoveOnGame game sid col =
        (game, [(EmitTarget.socket sid, OutMsg.invalidMove MoveRejection.columnIsFull)])) := by
  have hcol : ¬(col < 0 ∨ 7 ≤ col) := by omega
  refine ⟨?_, ?_, ?_⟩
  · intro hex
    cases hd : findDropRow game.board col.toNat with
    | none =>
      obtain ⟨r, hr, he⟩ := hex
      have := findDropRow_none_spec game.board col.toNat hd r hr
      rw [this] at he
      cases he
    | some r₀ =>
      obtain ⟨h1, h2, h3⟩ := findDropRow_spec_some game.board col.toNat r₀ hd
      exact ⟨r₀, h1, h2, h3⟩
  · intro r₀ h5 he hab
    have hdrop := findDropRow_of_spec game.board col.toNat r₀ h5 he hab
    have hb := makeMoveOnGame_board_eq game sid col r₀ hturn hwin hcol hdrop
    refine ⟨hb, ?_, ?_⟩
    · rw [hb]
      exact setCell_cellN_same game.board r₀ col.toNat (resolveColor game sid) hwf
        (by omega) (by omega)
    · intro r c hne
      rw [hb]
      exact setCell_cellN_other game.board r₀ col.toNat (resolveColor game sid) r c hne
  · intro hall
    exact makeMoveOnGame_columnFull game sid col hturn hwin hcol
      (findDropRow_none game.board col.toNat hall)

def sidR : String := "sR"

def sidY : String := "sY"

def uidR : String := "uR"

def uidY : String := "uY"

/-- A fresh game used to instantiate the drop-placement claim. -/
def wGame1 : GameData :=
  { id := "g1"
    board := createEmptyBoard
    currentTurn := Color.red
    redPlayer := ⟨"sR", "uR", "nameR"⟩
    yellowPlayer := ⟨"sY", "uY", "nameY"⟩
    winner := none
    winningCells := none }

/-- C1 witness: on a fresh game, red dropping in column 3 lands in row 5
and that cell now holds red. -/
theorem claim_C1_witness :
    (makeMoveOnGame wGame1 sidR 3).1.board = setCell wGame1.board 5 3 Color.red ∧
      cellN (makeMoveOnGame wGame1 sidR 3).1.board 5 3 = some (some Color.red) := by
  have h := (claim_C1 wGame1 sidR 3 (by decide) (by decide) rfl (by decide) (by decide)).2.1 5
    (by decide) (by decide) (fun r' h1 h2 => absurd (h1.trans_le h2) (lt_irrefl 5))
  exact ⟨h.1, h.2.1⟩

/-- Once a winner is stored every further move is rejected: with the
turn-check first, the requester whose color holds the turn gets the
game-over message and every other requester the wrong-turn message. -/
theorem makeMoveOnGame_winnerSet (game : GameData) (sid : String) (col : Int)
    (hw : game.winner.isSome = true) :
    makeMoveOnGame game sid col =
      (game, [(EmitTarget.socket sid, OutMsg.invalidMove
        (if game.currentTurn = resolveColor game sid then MoveRejection.gameIsOver
         else MoveRejection.notYourTurn))]) := by
  by_cases ht : game.currentTurn = resolveColor game sid
  · rw [if_pos ht]
    exact makeMoveOnGame_gameOver game sid col ht hw
  · rw [if_neg ht]
    exact makeMoveOnGame_notYourTurn game sid col ht

/-- A passing move emits no rejection: its broadcasts go to the game
room. -/
theorem makeMoveOnGame_success_emits (game : GameData) (sid : String) (col : Int) (row : Nat)
    (hturn : game.currentTurn = resolveColor game sid)
    (hwin : game.winner = none)
    (hcol : ¬(col < 0 ∨ 7 ≤ col))
    (hdrop : findDropRow game.board col.toNat = some row) :
    ∀ tgt rj, (tgt, OutMsg.invalidMove rj) ∉ (makeMoveOnGame game sid col).2 := by
  unfold makeMoveOnGame
  have hne : ¬(game.currentTurn ≠ resolveColor game sid) := by rw [hturn]; simp
  have hws : ¬(game.winner.isSome = true) := by rw [hwin]; simp
  rw [if_neg hne, if_neg hws, if_neg hcol, hdrop]
  dsimp only
  cases hcw : checkWinner (setCell game.board row col.toNat (resolveColor game sid)) row
      col.toNat with
  | some p =>
    cases p with
    | mk w cells => intro tgt rj; simp
  | none =>
    by_cases hf : isBoardFull (setCell game.board row col.toNat (resolveColor game sid)) = true
    · rw [if_pos hf]
      intro tgt rj
      simp
    · rw [if_neg hf]
      intro tgt rj
      simp

/-- A passing move flips the turn unless it sets a winner, in which case
the stored turn is left untouched. -/
theorem makeMoveOnGame_success_turn (game : GameData) (sid : String) (col : Int) (row : Nat)
    (hturn : game.currentTurn = resolveColor game sid)
    (hwin : game.winner = none)
    (hcol : ¬(col < 0 ∨ 7 ≤ col))
    (hdrop : findDropRow game.board col.toNat = some row) :
    ((makeMoveOnGame game sid col).1.winner = none →
      (makeMoveOnGame game sid col).1.currentTurn = flipTurn game.currentTurn) ∧
    ((makeMoveOnGame game sid col).1.winner.isSome = true →
      (makeMoveOnGame game sid col).1.currentTurn = game.currentTurn) := by
  unfold makeMoveOnGame
  have hne : ¬(game.currentTurn ≠ resolveColor game sid) := by rw [hturn]; simp
  have hws : ¬(game.winner.isSome = true) := by rw [hwin]; simp
  rw [if_neg hne, if_neg hws, if_neg hcol, hdrop]
  dsimp only
  cases hcw : checkWinner (setCell game.board row col.toNat (resolveColor game sid)) row
      col.toNat with
  | some p =>
    cases p with
    | mk w cells =>
      constructor
      · intro h
        cases h
      · intro _
        rfl
  | none =>
    by_cases hf : isBoardFull (setCell game.board row col.toNat (resolveColor game sid)) = true
    · rw [if_pos hf]
      constructor
      · intro h
        cases h
      · intro _
        rfl
    · rw [if_neg hf]
      constructor
      · intro _
        rfl
      · intro h
        rw [hwin] at h
        cases h

/-- Folding a list of move attempts over one game, as a socket would
replay them against the session. -/
def runMovesOnGame (game : GameData) (moves : List (String × Int)) : GameData :=
  moves.foldl (fun g m => (makeMoveOnGame g m.1 m.2).1) game

/-- A finished game absorbs every further move attempt unchanged. -/
theorem runMovesOnGame_winnerSet (game : GameData) (moves : List (String × Int))
    (hw : game.winner.isSome = true) : runMovesOnGame game moves = game := by
  induction moves generalizing game with
  | nil => rfl
  | cons m ms ih =>
    unfold runMovesOnGame
    rw [List.foldl_cons]
    have hstep : (makeMoveOnGame game m.1 m.2).1 = game := by
      rw [makeMoveOnGame_winnerSet game m.1 m.2 hw]
    rw [hstep]
    exact ih game hw

/-- C2: a move on a session whose winner is set is always rejected (with
the game-over message exactly when the requester's color holds the
stored turn); every rejection is a single invalidMove event to the
acting socket with the session state unchanged; a move that does change
the session was made by the color holding the turn on an unfinished
game and either sets a winner (leaving the turn) or flips the turn; and
a finished session absorbs any further sequence of move attempts with
no state change at all. -/
theorem claim_C2 (game : GameData) (sid : String) (col : Int) :
    (game.winner.isSome = true →
      makeMoveOnGame game sid col =
        (game, [(EmitTarget.socket sid, OutMsg.invalidMove
          (if game.currentTurn = resolveColor game sid then MoveRejection.gameIsOver
           else MoveRejection.notYourTurn))])) ∧
    (∀ tgt rj, (tgt, OutMsg.invalidMove rj) ∈ (makeMoveOnGame game sid col).2 →
      (makeMoveOnGame game sid col).1 = game ∧ tgt = EmitTarget.socket sid ∧
        (makeMoveOnGame game sid col).2 =
          [(EmitTarget.socket sid, OutMsg.invalidMove rj)]) ∧
    ((makeMoveOnGame game sid col).1 ≠ game →
      resolveColor game sid = game.currentTurn ∧ game.winner = none ∧
        ((makeMoveOnGame game sid col).1.winner = none →
          (makeMoveOnGame game sid col).1.currentTurn = flipTurn game.currentTurn) ∧
        ((makeMoveOnGame game sid col).1.winner.isSome = true →
          (makeMoveOnGame game sid col).1.currentTurn = game.currentTurn)) ∧
    (∀ moves : List (String × Int), game.winner.isSome = true →
      runMovesOnGame game moves = game) := by
  refine ⟨fun hw => makeMoveOnGame_winnerSet game sid col hw, ?_, ?_,
    fun moves hw => runMovesOnGame_winnerSet game moves hw⟩
  · intro tgt rj hmem
    by_cases ht : game.currentTurn = resolveColor game sid
    · by_cases hw : game.winner.isSome = true
      · rw [makeMoveOnGame_gameOver game sid col ht hw] at hmem ⊢
        simp only [List.mem_singleton, Prod.mk.injEq] at hmem
        obtain ⟨h1, h2⟩ := hmem
        injection h2 with h2
        exact ⟨rfl, h1, by rw [h2]⟩
      · have hwn : game.winner = none := Option.not_isSome_iff_eq_none.mp hw
        by_cases hcb : col < 0 ∨ 7 ≤ col
        · rw [makeMoveOnGame_invalidColumn game sid col ht hwn hcb] at hmem ⊢
          simp only [List.mem_singleton, Prod.mk.injEq] at hmem
          obtain ⟨h1, h2⟩ := hmem
          injection h2 with h2
          exact ⟨rfl, h1, by rw [h2]⟩
        · cases hd : findDropRow game.board col.toNat with
          | none =>
            rw [makeMoveOnGame_columnFull game sid col ht hwn hcb hd] at hmem ⊢
            simp only [List.mem_singleton, Prod.mk.injEq] at hmem
            obtain ⟨h1, h2⟩ := hmem
            injection h2 with h2
            exact ⟨rfl, h1, by rw [h2]⟩
          | some row =>
            exact absurd hmem
              (makeMoveOnGame_success_emits game sid col row ht hwn hcb hd tgt rj)
    · have ht' : game.currentTurn ≠ resolveColor game sid := ht
      rw [makeMoveOnGame_notYourTurn game sid col ht'] at hmem ⊢
      simp only [List.mem_singleton, Prod.mk.injEq] at hmem
      obtain ⟨h1, h2⟩ := hmem
      injection h2 with h2
      exact ⟨rfl, h1, by rw [h2]⟩
  · intro hne
    by_cases ht : game.currentTurn = resolveColor game sid
    · by_cases hw : game.winner.isSome = true
      · rw [makeMoveOnGame_gameOver game sid col ht hw] at hne
        exact absurd rfl hne
      · have hwn : game.winner = none := Option.not_isSome_iff_eq_none.mp hw
        by_cases hcb : col < 0 ∨ 7 ≤ col
        · rw [makeMoveOnGame_invalidColumn game sid col ht hwn hcb] at hne
          exact absurd rfl hne
        · cases hd : findDropRow game.board col.toNat with
          | none =>
            rw [makeMoveOnGame_columnFull game sid col ht hwn hcb hd] at hne
            exact absurd rfl hne
          | some row =>
            exact ⟨ht.symm, hwn,
              makeMoveOnGame_success_turn game sid col row ht hwn hcb hd⟩
    · have ht' : game.currentTurn ≠ resolveColor game sid := ht
      rw [makeMoveOnGame_notYourTurn game sid col ht'] at hne
      exact absurd rfl hne

/-- A finished game used to instantiate the terminal-state claim. -/
def wGameDone : GameData :=
  { id := "g2"
    board := createEmptyBoard
    currentTurn := Color.yellow
    redPlayer := ⟨"sR", "uR", "nameR"⟩
    yellowPlayer := ⟨"sY", "uY", "nameY"⟩
    winner := some (Winner.colorWin Color.red)
    winningCells := none }

/-- C2 witness: on a finished game the turn-holder's move is rejected
with the game-over message and two further move attempts leave the
session untouched. -/
theorem claim_C2_witness :
    makeMoveOnGame wGameDone sidY 0 =
      (wGameDone, [(EmitTarget.socket sidY, OutMsg.invalidMove MoveRejection.gameIsOver)]) ∧
      runMovesOnGame wGameDone [(sidY, 0), (sidR, 3)] = wGameDone := by
  have h := claim_C2 wGameDone sidY 0
  constructor
  · have h1 := h.1 (by decide)
    rw [h1]
    have : (wGameDone.currentTurn = resolveColor wGameDone sidY) := by decide
    rw [if_pos this]
  · exact h.2.2.2 [(sidY, 0), (sidR, 3)] (by decide)

/-- The positions a walk from (r, c) in direction d would visit: offsets
0, 1, ..., n-1 of d from the start. -/
def rayCells (r c : Int) (d : Int × Int) (n : Nat) : List (Int × Int) :=
  (List.range n).map (fun (k : Nat) => (r + (k : Int) * d.1, c + (k : Int) * d.2))

theorem rayCells_zero (r c : Int) (d : Int × Int) : rayCells r c d 0 = [] := rfl

theorem rayCells_succ (r c : Int) (d : Int × Int) (n : Nat) :
    rayCells r c d (n + 1) = (r, c) :: rayCells (r + d.1) (c + d.2) d n := by
  unfold rayCells
  rw [List.range_succ_eq_map, List.map_cons, List.map_map]
  congr 1
  · simp
  · apply List.map_congr_left
    intro k _
    simp only [Function.comp_apply, Prod.mk.injEq]
    constructor <;> (push_cast; ring)

theorem rayCells_length (r c : Int) (d : Int × Int) (n : Nat) :
    (rayCells r c d n).length = n := by
  unfold rayCells
  rw [List.length_map, List.length_range]

/-- The while-loop visits the ray positions in order exactly as long as
they hold the player's color, and within the fuel budget it stops at
the first position that does not. -/
theorem walkDir_spec (b : Board) (player : Color) (d : Int × Int) :
    ∀ fuel r c, ∃ n, n ≤ fuel ∧
      walkDir b player d fuel r c = rayCells r c d n ∧
      (∀ k : Nat, k < n → cellAt b (r + k * d.1) (c + k * d.2) = some player) ∧
      (n < fuel → cellAt b (r + n * d.1) (c + n * d.2) ≠ some player) := by
  intro fuel
  induction fuel with
  | zero =>
    intro r c
    exact ⟨0, le_refl 0, rfl, fun k hk => absurd hk (by omega), fun h => absurd h (by omega)⟩
  | succ fuel ih =>
    intro r c
    simp only [walkDir]
    by_cases h0 : cellAt b r c = some player
    · obtain ⟨n, hle, heq, hall, hstop⟩ := ih (r + d.1) (c + d.2)
      refine ⟨n + 1, by omega, ?_, ?_, ?_⟩
      · rw [if_pos h0, heq, rayCells_succ]
      · intro k hk
        cases k with
        | zero => simpa using h0
        | succ k =>
          have hk' : k < n := by omega
          have := hall k hk'
          have harg : r + (k + 1 : Nat) * d.1 = r + d.1 + k * d.1 := by push_cast; ring
          have harg2 : c + (k + 1 : Nat) * d.2 = c + d.2 + k * d.2 := by push_cast; ring
          rw [harg, harg2]
          exact this
      · intro hlt
        have hlt' : n < fuel := by omega
        have := hstop hlt'
        have harg : r + (n + 1 : Nat) * d.1 = r + d.1 + n * d.1 := by push_cast; ring
        have harg2 : c + (n + 1 : Nat) * d.2 = c + d.2 + n * d.2 := by push_cast; ring
        rw [harg, harg2]
        exact this
    · exact ⟨0, by omega, by rw [if_neg h0, rayCells_zero],
        fun k hk => absurd hk (by omega), fun _ => by simpa using h0⟩

theorem cellAt_some_bounds (b : Board) (r c : Int) (p : Color)
    (h : cellAt b r c = some p) : 0 ≤ r ∧ r < 6 ∧ 0 ≤ c ∧ c < 7 := by
  unfold cellAt at h
  by_cases hb : 0 ≤ r ∧ r < 6 ∧ 0 ≤ c ∧ c < 7
  · exact hb
  · rw [if_neg hb] at h
    cases h

/-- The eight step directions that occur in the four axis pairs. -/
def unitDirs : List (Int × Int) :=
  [(0, 1), (0, -1), (1, 0), (-1, 0), (1, 1), (-1, -1), (1, -1), (-1, 1)]

theorem directionPairs_unitDirs :
    ∀ d ∈ directionPairs, d.1 ∈ unitDirs ∧ d.2 ∈ unitDirs := by decide

/-- Seven steps in any of the eight directions, taken from a cell that is
on the board, land outside the 6 by 7 grid. -/
theorem seven_steps_out (b : Board) (p : Color) (d : Int × Int) (hd : d ∈ unitDirs)
    (r c : Int) (h0 : cellAt b r c = some p) :
    cellAt b (r + (7 : Nat) * d.1) (c + (7 : Nat) * d.2) ≠ some p := by
  have hb := cellAt_some_bounds b r c p h0
  intro hcontra
  have hb7 := cellAt_some_bounds b _ _ p hcontra
  fin_cases hd <;> (simp only at hb7; omega)

/-- A maximal same-color ray: n cells of the player's color starting at
(r, c) stepping by d, the next cell being off the board, empty or of
the other color. -/
def runFrom (b : Board) (player : Color) (r c : Int) (d : Int × Int) (n : Nat) : Prop :=
  (∀ k : Nat, k < n → cellAt b (r + k * d.1) (c + k * d.2) = some player) ∧
    cellAt b (r + n * d.1) (c + n * d.2) ≠ some player

/-- With fuel 7 the walk computes exactly the maximal same-color ray from
its start for any of the eight directions. -/
theorem walkDir7_run (b : Board) (player : Color) (d : Int × Int) (hd : d ∈ unitDirs)
    (r c : Int) :
    ∃ n, walkDir b player d 7 r c = rayCells r c d n ∧ runFrom b player r c d n := by
  obtain ⟨n, hle, heq, hall, hstop⟩ := walkDir_spec b player d 7 r c
  refine ⟨n, heq, hall, ?_⟩
  by_cases hn : n < 7
  · exact hstop hn
  · have hn7 : n = 7 := by omega
    subst hn7
    have h0 : cellAt b (r + (0 : Nat) * d.1) (c + (0 : Nat) * d.2) = some player :=
      hall 0 (by omega)
    have h0' : cellAt b r c = some player := by
      simpa using h0
    exact seven_steps_out b player d hd r c h0'

theorem checkWinnerLoop_none_iff (b : Board) (p : Color) (row col : Nat)
    (ds : List ((Int × Int) × (Int × Int))) :
    checkWinnerLoop b p row col ds = none ↔
      ∀ d ∈ ds, (axisCells b p row col d).length < 4 := by
  induction ds with
  | nil => simp [checkWinnerLoop]
  | cons d ds ih =>
    simp only [checkWinnerLoop]
    by_cases h : 4 ≤ (axisCells b p row col d).length
    · rw [if_pos h]
      constructor
      · intro hc
        cases hc
      · intro hall
        exact absurd (hall d (List.mem_cons_self d ds)) (by omega)
    · rw [if_neg h, ih]
      constructor
      · intro hall d' hd'
        rcases List.mem_cons.1 hd' with heq | hmem
        · rw [heq]
          omega
        · exact hall d' hmem
      · intro hall d' hd'
        exact hall d' (List.mem_cons_of_mem d hd')

theorem checkWinnerLoop_some (b : Board) (p : Color) (row col : Nat)
    (ds : List ((Int × Int) × (Int × Int))) (w : Color) (cells : List (Int × Int))
    (h : checkWinnerLoop b p row col ds = some (w, cells)) :
    w = p ∧ 4 ≤ cells.length ∧ ∃ d ∈ ds, cells = axisCells b p row col d := by
  induction ds with
  | nil => cases h
  | cons d ds ih =>
    simp only [checkWinnerLoop] at h
    by_cases hlen : 4 ≤ (axisCells b p row col d).length
    · rw [if_pos hlen] at h
      injection h with h
      injection h with h1 h2
      refine ⟨h1.symm, ?_, d, List.mem_cons_self d ds, h2.symm⟩
      rw [← h2]
      exact hlen
    · rw [if_neg hlen] at h
      obtain ⟨h1, h2, d', hd', h3⟩ := ih h
      exact ⟨h1, h2, d', List.mem_cons_of_mem d hd', h3⟩

/-- C3: for every board and every occupied just-placed cell, checkWinner
returns none exactly when the merged two-direction run of each of the
four axes stays below 4; any returned result carries the placing color
and the full merged list of one such axis with at least 4 cells (so
completing a run of 5 still reports a winner with at least 4 cells);
and each axis list consists of the placed cell together with the
maximal same-color rays in the axis's two opposite directions. -/
theorem claim_C3 (b : Board) (row col : Nat) (p : Color)
    (hp : cellN b row col = some (some p)) :
    (checkWinner b row col = none ↔
      ∀ d ∈ directionPairs, (axisCells b p row col d).length < 4) ∧
    (∀ w cells, checkWinner b row col = some (w, cells) →
      w = p ∧ 4 ≤ cells.length ∧ ∃ d ∈ directionPairs, cells = axisCells b p row col d) ∧
    (∀ d ∈ directionPairs, ∃ n₁ n₂,
      axisCells b p row col d =
        (((row : Int), (col : Int)) ::
            rayCells ((row : Int) + d.1.1) ((col : Int) + d.1.2) d.1 n₁) ++
          rayCells ((row : Int) + d.2.1) ((col : Int) + d.2.2) d.2 n₂ ∧
        runFrom b p ((row : Int) + d.1.1) ((col : Int) + d.1.2) d.1 n₁ ∧
        runFrom b p ((row : Int) + d.2.1) ((col : Int) + d.2.2) d.2 n₂ ∧
        (axisCells b p row col d).length = 1 + n₁ + n₂) := by
  have hloop : checkWinner b row col = checkWinnerLoop b p row col directionPairs := by
    unfold checkWinner
    rw [hp]
  refine ⟨?_, ?_, ?_⟩
  · rw [hloop]
    exact checkWinnerLoop_none_iff b p row col directionPairs
  · intro w cells h
    rw [hloop] at h
    exact checkWinnerLoop_some b p row col directionPairs w cells h
  · intro d hd
    obtain ⟨h1, h2⟩ := directionPairs_unitDirs d hd
    obtain ⟨n₁, heq1, hrun1⟩ :=
      walkDir7_run b p d.1 h1 ((row : Int) + d.1.1) ((col : Int) + d.1.2)
    obtain ⟨n₂, heq2, hrun2⟩ :=
      walkDir7_run b p d.2 h2 ((row : Int) + d.2.1) ((col : Int) + d.2.2)
    refine ⟨n₁, n₂, ?_, hrun1, hrun2, ?_⟩
    · unfold axisCells
      rw [heq1, heq2]
    · unfold axisCells
      rw [heq1, heq2]
      rw [List.length_append, List.length_cons, rayCells_length, rayCells_length]
      omega

/-- An all-empty row of seven cells. -/
def wEmptyRow : List Cell := List.replicate 7 (none : Cell)

/-- Bottom row holding red tokens in columns 1 through 5. -/
def wRow5 : List Cell :=
  [none, some Color.red, some Color.red, some Color.red, some Color.red, some Color.red, none]

/-- A board whose bottom row has a run of five red tokens, as it stands
right after red's token landed at row 5, column 3. -/
def wBoard5 : Board := [wEmptyRow, wEmptyRow, wEmptyRow, wEmptyRow, wEmptyRow, wRow5]

/-- C3 witness: on the five-in-a-row board the placement at (5, 3) is
reported as a win for red with at least 4 cells. -/
theorem claim_C3_witness :
    checkWinner wBoard5 5 3 ≠ none ∧
      ∀ w cells, checkWinner wBoard5 5 3 = some (w, cells) →
        w = Color.red ∧ 4 ≤ cells.length := by
  have h := claim_C3 wBoard5 5 3 Color.red (by decide)
  constructor
  · intro hnone
    have hall := h.1.mp hnone
    have hhor := hall ((0, 1), (0, -1)) (by decide)
    have hlen : (axisCells wBoard5 Color.red 5 3 ((0, 1), (0, -1))).length = 5 := by decide
    omega
  · intro w cells hw
    exact ⟨(h.2.1 w cells hw).1, (h.2.1 w cells hw).2.1⟩

/-- Boards reachable from the empty board by legal drops: each drop lands
in the row the makeMove scan finds for a column of the grid. -/
inductive ReachableBoard : Board → Prop
  | empty : ReachableBoard createEmptyBoard
  | drop (b : Board) (col : Nat) (color : Color) (r : Nat) :
      ReachableBoard b → col < 7 → findDropRow b col = some r →
      ReachableBoard (setCell b r col color)

/-- All 42 cells hold a token. -/
def boardAllOccupied (b : Board) : Prop :=
  ∀ r, r < 6 → ∀ c, c < 7 → cellOccupied b r c = true

/-- Tokens rest on tokens: below an occupied cell every cell of the
column is occupied. -/
def gravity (b : Board) : Prop :=
  ∀ c, c < 7 → ∀ r, r < 5 → cellOccupied b r c = true → cellOccupied b (r + 1) c = true

theorem cellOccupied_congr (b₁ b₂ : Board) (r c : Nat)
    (h : cellN b₁ r c = cellN b₂ r c) : cellOccupied b₁ r c = cellOccupied b₂ r c := by
  unfold cellOccupied
  rw [h]

theorem reachable_wf (b : Board) (h : ReachableBoard b) : wfBoard b := by
  induction h with
  | empty => decide
  | drop b col color r hb hcol hdrop ih => exact setCell_wf b r col color ih

theorem reachable_gravity (b : Board) (h : ReachableBoard b) : gravity b := by
  induction h with
  | empty =>
    intro c hc r hr hocc
    have : cellOccupied createEmptyBoard r c = false := by
      interval_cases r <;> interval_cases c <;> decide
    rw [this] at hocc
    cases hocc
  | drop b col color r₀ hb hcol hdrop ih =>
    have hwf : wfBoard b := reachable_wf b hb
    obtain ⟨hr05, hemp, habove⟩ := findDropRow_spec_some b col r₀ hdrop
    intro c hc r hr hocc
    by_cases hsame : r = r₀ ∧ c = col
    · obtain ⟨hr', hc'⟩ := hsame
      subst hr'
      subst hc'
      have hup : cellOccupied b (r + 1) c = true := by
        apply emptyAt_false_occupied b hwf (r + 1) c (by omega) hc
        exact habove (r + 1) (by omega) (by omega)
      rw [cellOccupied_congr _ b (r + 1) c
        (setCell_cellN_other b r c color (r + 1) c (by omega))]
      exact hup
    · have htrans : cellOccupied b r c = true := by
        rw [← cellOccupied_congr (setCell b r₀ col color) b r c
          (setCell_cellN_other b r₀ col color r c hsame)]
        exact hocc
      have hup : cellOccupied b (r + 1) c = true := ih c hc r hr htrans
      by_cases hsame2 : r + 1 = r₀ ∧ c = col
      · obtain ⟨hr', hc'⟩ := hsame2
        subst hc'
        unfold cellOccupied
        rw [← hr']
        rw [setCell_cellN_same b (r + 1) c color hwf (by omega) hc]
      · rw [cellOccupied_congr _ b (r + 1) c
          (setCell_cellN_other b r₀ col color (r + 1) c hsame2)]
        exact hup

theorem isBoardFull_iff_allOccupied (b : Board) (hwf : wfBoard b) (hgrav : gravity b) :
    isBoardFull b = true ↔ boardAllOccupied b := by
  obtain ⟨topRow, htop, hlen⟩ := wfBoard_row b hwf 0 (by omega)
  have hfull : isBoardFull b = topRow.all (fun cell => cell.isSome) := by
    unfold isBoardFull
    rw [htop]
  constructor
  · intro h
    rw [hfull] at h
    have hall := List.all_eq_true.1 h
    have hrow0 : ∀ c, c < 7 → cellOccupied b 0 c = true := by
      intro c hc
      have hc7 : c < topRow.length := by omega
      have hcell : cellN b 0 c = some topRow[c] := by
        rw [cellN_eq_row b 0 c topRow htop]
        exact List.getElem?_eq_getElem hc7
      have hsome := hall _ (List.getElem_mem hc7)
      unfold cellOccupied
      rw [hcell]
      cases hval : topRow[c] with
      | none => rw [hval] at hsome; exact absurd hsome (by simp)
      | some q => rfl
    intro r hr c hc
    induction r with
    | zero => exact hrow0 c hc
    | succ r ihr =>
      exact hgrav c hc r (by omega) (ihr (by omega))
  · intro h
    rw [hfull]
    apply List.all_eq_true.2
    intro cell hmem
    obtain ⟨c, hclen, hcell⟩ := List.mem_iff_getElem.1 hmem
    have hocc := h 0 (by omega) c (by omega)
    unfold cellOccupied at hocc
    rw [cellN_eq_row b 0 c topRow htop] at hocc
    rw [List.getElem?_eq_getElem (l := topRow) hclen] at hocc
    rw [hcell] at hocc
    cases cell with
    | none => simp at hocc
    | some q => simp

/-- C7: on every board reachable from the empty board by legal drops,
the fullness check — which reads only the top row — is true exactly
when all 42 cells are occupied; bottom-up filling makes the top-row
shortcut sound. -/
theorem claim_C7 (b : Board) (h : ReachableBoard b) :
    isBoardFull b = true ↔ boardAllOccupied b :=
  isBoardFull_iff_allOccupied b (reachable_wf b h) (reachable_gravity b h)

/-- C7 witness: the empty board is reachable, its fullness check is
false, so not all of its cells are occupied. -/
theorem claim_C7_witness : ¬ boardAllOccupied createEmptyBoard := by
  intro hall
  have h := (claim_C7 createEmptyBoard ReachableBoard.empty).mpr hall
  have hfalse : isBoardFull createEmptyBoard = false := by decide
  rw [hfalse] at h
  cases h

theorem mapSet_absent {α : Type} (m : List (String × α)) (k : String) (v : α)
    (h : mapGet m k = none) : mapSet m k v = m ++ [(k, v)] := by
  unfold mapSet
  unfold mapGet at h
  rw [Option.map_eq_none'] at h
  rw [if_neg (by rw [h]; simp)]

/-- C9: a forfeit by a party of an existing session notifies only the
opponent's stored socket — the forfeiter receives nothing — and deletes
the session at once, after which a move on the same session id is
silently ignored with no state change. -/
theorem claim_C9 (st : ServerState) (sid gameId : String) (game : GameData)
    (hg : mapGet st.activeGames gameId = some game)
    (hparty : sid = game.redPlayer.socketId ∨ sid = game.yellowPlayer.socketId)
    (hdistinct : game.redPlayer.socketId ≠ game.yellowPlayer.socketId) :
    (forfeitGame st sid gameId).1.activeGames = mapDelete st.activeGames gameId ∧
    mapGet (forfeitGame st sid gameId).1.activeGames gameId = none ∧
    (sid = game.redPlayer.socketId →
      (forfeitGame st sid gameId).2 =
        [(EmitTarget.socket game.yellowPlayer.socketId,
          OutMsg.opponentForfeited game.redPlayer.username)]) ∧
    (sid = game.yellowPlayer.socketId →
      (forfeitGame st sid gameId).2 =
        [(EmitTarget.socket game.redPlayer.socketId,
          OutMsg.opponentForfeited game.yellowPlayer.username)]) ∧
    (∀ e ∈ (forfeitGame st sid gameId).2, e.1 ≠ EmitTarget.socket sid) ∧
    (∀ sid2 col, makeMove (forfeitGame st sid gameId).1 sid2 gameId col =
      ((forfeitGame st sid gameId).1, [])) := by
  have hdel : (forfeitGame st sid gameId).1.activeGames = mapDelete st.activeGames gameId := by
    unfold forfeitGame
    rw [hg]
  have hnone : mapGet (forfeitGame st sid gameId).1.activeGames gameId = none := by
    rw [hdel]
    exact mapGet_delete_self st.activeGames gameId
  have hmove : ∀ sid2 col, makeMove (forfeitGame st sid gameId).1 sid2 gameId col =
      ((forfeitGame st sid gameId).1, []) := by
    intro sid2 col
    unfold makeMove
    rw [hnone]
  by_cases hbe : (game.redPlayer.socketId == sid) = true
  · have hred : game.redPlayer.socketId = sid := by simpa using hbe
    have hemit : (forfeitGame st sid gameId).2 =
        [(EmitTarget.socket game.yellowPlayer.socketId,
          OutMsg.opponentForfeited game.redPlayer.username)] := by
      unfold forfeitGame
      rw [hg]
      dsimp only
      rw [if_pos hbe, if_pos hbe]
    refine ⟨hdel, hnone, fun _ => hemit, ?_, ?_, hmove⟩
    · intro hy
      exact absurd (hred.trans hy) hdistinct
    · intro e hmem
      rw [hemit] at hmem
      simp only [List.mem_singleton] at hmem
      rw [hmem]
      intro hcontra
      injection hcontra with hcontra
      exact hdistinct (hred.trans hcontra.symm)
  · have hyellow : sid = game.yellowPlayer.socketId := by
      rcases hparty with h | h
      · exact absurd (by simp [h]) hbe
      · exact h
    have hemit : (forfeitGame st sid gameId).2 =
        [(EmitTarget.socket game.redPlayer.socketId,
          OutMsg.opponentForfeited game.yellowPlayer.username)] := by
      unfold forfeitGame
      rw [hg]
      dsimp only
      rw [if_neg hbe, if_neg hbe]
    refine ⟨hdel, hnone, ?_, fun _ => hemit, ?_, hmove⟩
    · intro hr
      exact absurd (by simp [hr.symm]) hbe
    · intro e hmem
      rw [hemit] at hmem
      simp only [List.mem_singleton] at hmem
      rw [hmem]
      intro hcontra
      injection hcontra with hcontra
      rw [hyellow] at hcontra
      exact hdistinct hcontra

def gid1 : String := "g1"

def cid1 : String := "c1"

def sidZ : String := "sZ"

/-- A server state holding exactly the fresh game wGame1. -/
def stOneGame : ServerState :=
  { onlineUsers := []
    joinedFlags := []
    activeChallenges := []
    timers := []
    activeGames := [("g1", wGame1)] }

/-- C9 witness: red forfeits the one active game; only yellow's socket is
notified and the game is gone. -/
theorem claim_C9_witness :
    mapGet (forfeitGame stOneGame sidR gid1).1.activeGames gid1 = none ∧
      (forfeitGame stOneGame sidR gid1).2 =
        [(EmitTarget.socket wGame1.yellowPlayer.socketId,
          OutMsg.opponentForfeited wGame1.redPlayer.username)] := by
  have h := claim_C9 stOneGame sidR gid1 wGame1 (by decide) (Or.inl (by decide)) (by decide)
  exact ⟨h.2.1, h.2.2.1 (by decide)⟩

/-- The hasJoinedLobby guard: a flagged socket's joinLobby does
nothing. -/
theorem joinLobby_flagged (st : ServerState) (sid u n : String)
    (h : sid ∈ st.joinedFlags) : joinLobby st sid u n = (st, []) := by
  unfold joinLobby
  rw [if_pos h]

theorem joinLobby_flags_after (st : ServerState) (sid u n : String) :
    sid ∈ (joinLobby st sid u n).1.joinedFlags := by
  by_cases h : sid ∈ st.joinedFlags
  · rw [joinLobby_flagged st sid u n h]
    exact h
  · unfold joinLobby
    rw [if_neg h]
    exact List.mem_cons_self sid st.joinedFlags

/-- C10: a joinLobby from a socket marked as having joined is a complete
no-op, and after any joinLobby the socket is so marked, hence a second
joinLobby from the same socket — with any userId and username — changes
nothing and emits nothing. -/
theorem claim_C10 (st : ServerState) (sid u1 n1 u2 n2 : String) :
    (sid ∈ st.joinedFlags → joinLobby st sid u1 n1 = (st, [])) ∧
    sid ∈ (joinLobby st sid u1 n1).1.joinedFlags ∧
    joinLobby (joinLobby st sid u1 n1).1 sid u2 n2 = ((joinLobby st sid u1 n1).1, []) :=
  ⟨fun hc => joinLobby_flagged st sid u1 n1 hc, joinLobby_flags_after st sid u1 n1,
    joinLobby_flagged _ sid u2 n2 (joinLobby_flags_after st sid u1 n1)⟩

/-- The pending challenge from red's socket to yellow's socket. -/
def chRY : Challenge :=
  { id := "c1"
    fromSocket := "sR"
    fromUsername := "nameR"
    fromUserId := "uR"
    toSocket := "sY"
    toUsername := "nameY"
    toUserId := "uY" }

/-- A server state with three lobby users and one pending challenge from
red's socket to yellow's socket, its timer armed. -/
def stPending : ServerState :=
  { onlineUsers := [("sR", ⟨"sR", "uR", "nameR"⟩), ("sY", ⟨"sY", "uY", "nameY"⟩),
      ("sZ", ⟨"sZ", "uZ", "nameZ"⟩)]
    joinedFlags := ["sR", "sY", "sZ"]
    activeChallenges := [("c1", chRY)]
    timers := [⟨"c1", "sR", "sY", 10000⟩]
    activeGames := [] }

/-- C5 counterexample: a third socket that is neither party accepts the
pending challenge and the acceptance succeeds — the challenge is
consumed and a session is created — refuting that acceptChallenge
succeeds only for the challenge's target and that operations from
non-parties never mutate state. -/
theorem claim_C5_counterexample :
    sidZ ≠ chRY.toSocket ∧
      mapGet (acceptChallenge stPending sidZ cid1 chRY.fromSocket gid1).1.activeChallenges
        cid1 = none ∧
      (mapGet (acceptChallenge stPending sidZ cid1 chRY.fromSocket gid1).1.activeGames
        gid1).isSome = true := by
  refine ⟨by decide, by decide, by decide⟩

/-- C5 as amended: acceptChallenge succeeds for any requesting connection
whenever the challenge id exists — the requester is never compared with
the challenge's target — and builds the session from the challenge's
stored parties; operations on unknown challenge or session ids are
silently ignored with no state change; makeMove and forfeitGame resolve
every connection other than the stored red socket (party or not) to
yellow. -/
theorem claim_C5_amended :
    (∀ st sid challengeId fromArg freshGameId ch,
      mapGet st.activeChallenges challengeId = some ch →
      (acceptChallenge st sid challengeId fromArg freshGameId).1.activeChallenges =
          mapDelete st.activeChallenges challengeId ∧
        mapGet (acceptChallenge st sid challengeId fromArg freshGameId).1.activeGames
            freshGameId =
          some { id := freshGameId
                 board := createEmptyBoard
                 currentTurn := Color.red
                 redPlayer := ⟨ch.fromSocket, ch.fromUserId, ch.fromUsername⟩
                 yellowPlayer := ⟨ch.toSocket, ch.toUserId, ch.toUsername⟩
                 winner := none
                 winningCells := none }) ∧
    (∀ st sid challengeId fromArg freshGameId,
      mapGet st.activeChallenges challengeId = none →
      acceptChallenge st sid challengeId fromArg freshGameId = (st, [])) ∧
    (∀ game sid, game.redPlayer.socketId ≠ sid → resolveColor game sid = Color.yellow) ∧
    (∀ st sid gameId col, mapGet st.activeGames gameId = none →
      makeMove st sid gameId col = (st, [])) ∧
    (∀ st sid gameId, mapGet st.activeGames gameId = none →
      forfeitGame st sid gameId = (st, [])) := by
  refine ⟨?_, ?_, ?_, ?_, ?_⟩
  · intro st sid challengeId fromArg freshGameId ch h
    unfold acceptChallenge
    rw [h]
    exact ⟨rfl, mapGet_set_self _ _ _⟩
  · intro st sid challengeId fromArg freshGameId h
    unfold acceptChallenge
    rw [h]
  · intro game sid h
    unfold resolveColor
    rw [if_neg (by simpa using h)]
  · intro st sid gameId col h
    unfold makeMove
    rw [h]
  · intro st sid gameId h
    unfold forfeitGame
    rw [h]

/-- C5 amended witness: accepting an absent challenge id on the empty
server changes nothing, and a socket other than red's resolves to
yellow. -/
theorem claim_C5_amended_witness :
    acceptChallenge initialServerState sidZ cid1 sidR gid1 = (initialServerState, []) ∧
      resolveColor wGame1 sidZ = Color.yellow := by
  have h := claim_C5_amended
  exact ⟨h.2.1 initialServerState sidZ cid1 sidR gid1 rfl, h.2.2.1 wGame1 sidZ (by decide)⟩

/-- A server state with a single lobby user on red's socket. -/
def stSolo : ServerState :=
  { onlineUsers := [("sR", ⟨"sR", "uR", "nameR"⟩)]
    joinedFlags := ["sR"]
    activeChallenges := []
    timers := []
    activeGames := [] }

/-- The self-challenge the handler builds when red's socket challenges
itself. -/
def chSelf : Challenge :=
  { id := "c1"
    fromSocket := "sR"
    fromUsername := "nameR"
    fromUserId := "uR"
    toSocket := "sR"
    toUsername := "nameR"
    toUserId := "uR" }

/-- C6 counterexample: with a single online user, a sendChallenge whose
target is the sender's own socket creates a challenge whose fromUserId
equals its toUserId and notifies the target — refuting that equal user
ids make the handler a no-op. -/
theorem claim_C6_counterexample :
    mapGet (sendChallenge stSolo sidR sidR chSelf.fromUsername cid1).1.activeChallenges
        cid1 = some chSelf ∧
      chSelf.fromUserId = chSelf.toUserId ∧
      (sendChallenge stSolo sidR sidR chSelf.fromUsername cid1).2 ≠ [] := by
  refine ⟨by decide, by decide, by decide⟩

/-- C6 as amended: sendChallenge is a no-op exactly when either party is
absent from the presence registry; whenever both are present — even
when the sender's userId equals the target's — it appends exactly one
challenge under the fresh id, arms a cancellable 10000 ms timer for it
and notifies the target socket. -/
theorem claim_C6_amended :
    (∀ st sid toSid toUsername freshId,
      (mapGet st.onlineUsers sid = none ∨ mapGet st.onlineUsers toSid = none) →
      sendChallenge st sid toSid toUsername freshId = (st, [])) ∧
    (∀ st sid toSid toUsername freshId challenger opponent,
      mapGet st.onlineUsers sid = some challenger →
      mapGet st.onlineUsers toSid = some opponent →
      mapGet st.activeChallenges freshId = none →
      (sendChallenge st sid toSid toUsername freshId).1.activeChallenges =
          st.activeChallenges ++
            [(freshId, ⟨freshId, sid, challenger.username, challenger.userId, toSid,
              opponent.username, opponent.userId⟩)] ∧
        (sendChallenge st sid toSid toUsername freshId).1.timers =
          ⟨freshId, sid, toSid, 10000⟩ :: st.timers ∧
        (sendChallenge st sid toSid toUsername freshId).2 =
          [(EmitTarget.socket toSid,
            OutMsg.challengeReceived sid challenger.username freshId)]) := by
  constructor
  · intro st sid toSid toUsername freshId h
    unfold sendChallenge
    cases h1 : mapGet st.onlineUsers sid with
    | none => rfl
    | some challenger =>
      cases h2 : mapGet st.onlineUsers toSid with
      | none => rfl
      | some opponent =>
        rcases h with h | h
        · rw [h1] at h
          cases h
        · rw [h2] at h
          cases h
  · intro st sid toSid toUsername freshId challenger opponent h1 h2 h3
    unfold sendChallenge
    rw [h1, h2]
    refine ⟨?_, rfl, rfl⟩
    dsimp only
    rw [mapSet_absent _ _ _ h3]

/-- C6 amended witness: on the empty server a challenge to an absent
socket is a no-op; with one online user a self-challenge appends exactly
one challenge and arms its 10-second timer. -/
theorem claim_C6_amended_witness :
    sendChallenge initialServerState sidR sidY sidY cid1 = (initialServerState, []) ∧
      (sendChallenge stSolo sidR sidR chSelf.fromUsername cid1).1.timers =
        [⟨cid1, sidR, sidR, 10000⟩] := by
  have h := claim_C6_amended
  refine ⟨h.1 initialServerState sidR sidY sidY cid1 (Or.inl rfl), ?_⟩
  have h2 := h.2 stSolo sidR sidR chSelf.fromUsername cid1 ⟨"sR", "uR", "nameR"⟩
    ⟨"sR", "uR", "nameR"⟩ (by decide) (by decide) rfl
  exact h2.2.1

/-- C10 witness: the sole user's socket rejoining with a different userId
and username is a complete no-op. -/
theorem claim_C10_witness :
    joinLobby stSolo sidR uidY sidY = (stSolo, []) := by
  exact (claim_C10 stSolo sidR uidY sidY uidY sidY).1 (by decide)

/-! ## Per-handler frame lemmas -/

theorem joinLobby_frame (st : ServerState) (sid u n : String) :
    (joinLobby st sid u n).1.activeChallenges = st.activeChallenges ∧
      (joinLobby st sid u n).1.timers = st.timers ∧
      (joinLobby st sid u n).1.activeGames = st.activeGames := by
  unfold joinLobby
  by_cases h : sid ∈ st.joinedFlags
  · rw [if_pos h]
    exact ⟨rfl, rfl, rfl⟩
  · rw [if_neg h]
    exact ⟨rfl, rfl, rfl⟩

theorem sendChallenge_users (st : ServerState) (sid toSid toUsername freshId : String) :
    (sendChallenge st sid toSid toUsername freshId).1.onlineUsers = st.onlineUsers ∧
      (sendChallenge st sid toSid toUsername freshId).1.joinedFlags = st.joinedFlags := by
  unfold sendChallenge
  cases h1 : mapGet st.onlineUsers sid with
  | none => exact ⟨rfl, rfl⟩
  | some challenger =>
    cases h2 : mapGet st.onlineUsers toSid with
    | none => exact ⟨rfl, rfl⟩
    | some opponent => exact ⟨rfl, rfl⟩

theorem acceptChallenge_users (st : ServerState) (sid chId fromArg gid : String) :
    (acceptChallenge st sid chId fromArg gid).1.onlineUsers = st.onlineUsers ∧
      (acceptChallenge st sid chId fromArg gid).1.joinedFlags = st.joinedFlags := by
  unfold acceptChallenge
  cases h : mapGet st.activeChallenges chId with
  | none => exact ⟨rfl, rfl⟩
  | some ch => exact ⟨rfl, rfl⟩

theorem declineChallenge_users (st : ServerState) (sid chId fromArg : String) :
    (declineChallenge st sid chId fromArg).1.onlineUsers = st.onlineUsers ∧
      (declineChallenge st sid chId fromArg).1.joinedFlags = st.joinedFlags := by
  unfold declineChallenge
  cases h : mapGet st.activeChallenges chId with
  | none => exact ⟨rfl, rfl⟩
  | some ch => exact ⟨rfl, rfl⟩

theorem fireChallengeTimeout_users (st : ServerState) (chId : String) :
    (fireChallengeTimeout st chId).1.onlineUsers = st.onlineUsers ∧
      (fireChallengeTimeout st chId).1.joinedFlags = st.joinedFlags := by
  unfold fireChallengeTimeout
  cases h : st.timers.find? (fun t => t.challengeId == chId) with
  | none => exact ⟨rfl, rfl⟩
  | some t => exact ⟨rfl, rfl⟩

theorem joinGame_frame (st : ServerState) (sid gameId userId : String) :
    (joinGame st sid gameId userId).1.onlineUsers = st.onlineUsers ∧
      (joinGame st sid gameId userId).1.joinedFlags = st.joinedFlags ∧
      (joinGame st sid gameId userId).1.activeChallenges = st.activeChallenges ∧
      (joinGame st sid gameId userId).1.timers = st.timers := by
  unfold joinGame
  cases h : mapGet st.activeGames gameId with
  | none => exact ⟨rfl, rfl, rfl, rfl⟩
  | some game =>
    dsimp only
    by_cases h1 : (game.redPlayer.userId == userId) = true
    · rw [if_pos h1]
      exact ⟨rfl, rfl, rfl, rfl⟩
    · rw [if_neg h1]
      by_cases h2 : (game.yellowPlayer.userId == userId) = true
      · rw [if_pos h2]
        exact ⟨rfl, rfl, rfl, rfl⟩
      · rw [if_neg h2]
        exact ⟨rfl, rfl, rfl, rfl⟩

theorem makeMove_frame (st : ServerState) (sid gameId : String) (col : Int) :
    (makeMove st sid gameId col).1.onlineUsers = st.onlineUsers ∧
      (makeMove st sid gameId col).1.joinedFlags = st.joinedFlags ∧
      (makeMove st sid gameId col).1.activeChallenges = st.activeChallenges ∧
      (makeMove st sid gameId col).1.timers = st.timers := by
  unfold makeMove
  cases h : mapGet st.activeGames gameId with
  | none => exact ⟨rfl, rfl, rfl, rfl⟩
  | some game => exact ⟨rfl, rfl, rfl, rfl⟩

theorem forfeitGame_frame (st : ServerState) (sid gameId : String) :
    (forfeitGame st sid gameId).1.onlineUsers = st.onlineUsers ∧
      (forfeitGame st sid gameId).1.joinedFlags = st.joinedFlags ∧
      (forfeitGame st sid gameId).1.activeChallenges = st.activeChallenges ∧
      (forfeitGame st sid gameId).1.timers = st.timers := by
  unfold forfeitGame
  cases h : mapGet st.activeGames gameId with
  | none => exact ⟨rfl, rfl, rfl, rfl⟩
  | some game => exact ⟨rfl, rfl, rfl, rfl⟩

/-! ## Presence registry invariant -/

/-- Distinct entries of the presence map never share a socket id or a
user id. -/
def presencePairwise (st : ServerState) : Prop :=
  st.onlineUsers.Pairwise (fun p q => p.1 ≠ q.1 ∧ p.2.userId ≠ q.2.userId)

theorem presencePairwise_congr (st st' : ServerState)
    (h : st'.onlineUsers = st.onlineUsers) (hp : presencePairwise st) :
    presencePairwise st' := by
  unfold presencePairwise
  rw [h]
  exact hp

/-- Entries surviving the joinLobby eviction filter either sit on the
joining socket or carry a different userId. -/
theorem joinLobby_cleaned_userId (users : List (String × OnlineUser)) (sid u : String)
    (p : String × OnlineUser)
    (hp : p ∈ users.filter (fun p => !(p.2.userId == u && p.1 != sid)))
    (hkey : p.1 ≠ sid) : p.2.userId ≠ u := by
  obtain ⟨hmem, hcond⟩ := List.mem_filter.1 hp
  intro hu
  have : (p.2.userId == u && p.1 != sid) = true := by
    simp [hu, hkey]
  rw [this] at hcond
  cases hcond

theorem joinLobby_presence (st : ServerState) (sid u n : String)
    (h : presencePairwise st) : presencePairwise (joinLobby st sid u n).1 := by
  by_cases hf : sid ∈ st.joinedFlags
  · rw [joinLobby_flagged st sid u n hf]
    exact h
  · unfold joinLobby
    rw [if_neg hf]
    unfold presencePairwise at *
    dsimp only
    set cleaned := st.onlineUsers.filter (fun p => !(p.2.userId == u && p.1 != sid)) with hcleaned
    have hclean : cleaned.Pairwise (fun p q => p.1 ≠ q.1 ∧ p.2.userId ≠ q.2.userId) :=
      List.Pairwise.sublist (List.filter_sublist st.onlineUsers) h
    unfold mapSet
    by_cases hfind : (cleaned.find? (fun p => p.1 == sid)).isSome = true
    · rw [if_pos hfind]
      rw [List.pairwise_map]
      apply List.Pairwise.imp_of_mem ?_ hclean
      intro a b ha hb hab
      by_cases hka : (a.1 == sid) = true
      · have hka' : a.1 = sid := by simpa using hka
        rw [if_pos hka]
        have hkb : ¬ (b.1 = sid) := by
          rw [← hka']
          exact hab.1.symm
        rw [if_neg (by simpa using hkb)]
        exact ⟨fun hc => hkb hc.symm, fun hc =>
          joinLobby_cleaned_userId st.onlineUsers sid u b hb hkb hc.symm⟩
      · rw [if_neg hka]
        by_cases hkb : (b.1 == sid) = true
        · have hkb' : b.1 = sid := by simpa using hkb
          rw [if_pos hkb]
          have hka' : ¬ (a.1 = sid) := by simpa using hka
          exact ⟨fun hc => hka' hc, fun hc =>
            joinLobby_cleaned_userId st.onlineUsers sid u a ha hka' hc⟩
        · rw [if_neg hkb]
          exact hab
    · rw [if_neg hfind]
      rw [List.pairwise_append]
      refine ⟨hclean, List.pairwise_singleton _ _, ?_⟩
      intro a ha b hb
      have hb' : b = (sid, ⟨sid, u, n⟩) := by simpa using hb
      have hfind' : cleaned.find? (fun p => p.1 == sid) = none :=
        Option.not_isSome_iff_eq_none.mp hfind
      have hka : ¬ (a.1 = sid) := by
        have := List.find?_eq_none.1 hfind' a ha
        simpa using this
      rw [hb']
      exact ⟨hka, joinLobby_cleaned_userId st.onlineUsers sid u a ha hka⟩

theorem disconnect_presence (st : ServerState) (sid : String)
    (h : presencePairwise st) : presencePairwise (disconnect st sid).1 := by
  unfold disconnect
  cases hu : mapGet st.onlineUsers sid with
  | none => exact h
  | some user =>
    unfold presencePairwise at *
    dsimp only
    exact List.Pairwise.sublist (List.filter_sublist st.onlineUsers) h

theorem presence_step (st : ServerState) (ev : InEvent) (h : presencePairwise st) :
    presencePairwise (serverStep st ev) := by
  cases ev with
  | joinLobbyEv sid u n => exact joinLobby_presence st sid u n h
  | sendChallengeEv sid toSid toUsername fid =>
    exact presencePairwise_congr st _ (sendChallenge_users st sid toSid toUsername fid).1 h
  | acceptChallengeEv sid chId fromArg gid =>
    exact presencePairwise_congr st _ (acceptChallenge_users st sid chId fromArg gid).1 h
  | declineChallengeEv sid chId fromArg =>
    exact presencePairwise_congr st _ (declineChallenge_users st sid chId fromArg).1 h
  | challengeTimeoutEv chId =>
    exact presencePairwise_congr st _ (fireChallengeTimeout_users st chId).1 h
  | joinGameEv sid gameId userId =>
    exact presencePairwise_congr st _ (joinGame_frame st sid gameId userId).1 h
  | makeMoveEv sid gameId col =>
    exact presencePairwise_congr st _ (makeMove_frame st sid gameId col).1 h
  | forfeitGameEv sid gameId =>
    exact presencePairwise_congr st _ (forfeitGame_frame st sid gameId).1 h
  | disconnectEv sid => exact disconnect_presence st sid h

theorem presence_run (st : ServerState) (evs : List InEvent) (h : presencePairwise st) :
    presencePairwise (serverRun st evs) := by
  induction evs generalizing st with
  | nil => exact h
  | cons ev evs ih =>
    unfold serverRun
    rw [List.foldl_cons]
    exact ih (serverStep st ev) (presence_step st ev h)

theorem mapGet_unique_entry {α : Type} (m : List (String × α)) (k : String) (v : α)
    (hnodup : (m.map Prod.fst).Nodup) (h : mapGet m k = some v) :
    ∀ x ∈ m, x.1 = k → x = (k, v) := by
  induction m with
  | nil =>
    intro x hx
    cases hx
  | cons p m ih =>
    intro x hx hk
    rw [mapGet_cons] at h
    rw [List.map_cons, List.nodup_cons] at hnodup
    rcases List.mem_cons.1 hx with heq | hmem
    · subst heq
      by_cases hp : x.1 = k
      · rw [if_pos hp] at h
        injection h with h
        cases x with
        | mk a b =>
          simp only at hp h
          rw [hp, h]
      · exact absurd hk hp
    · by_cases hp : p.1 = k
      · exfalso
        apply hnodup.1
        rw [hp, ← hk]
        exact List.mem_map_of_mem Prod.fst hmem
      · rw [if_neg hp] at h
        exact ih hnodup.2 h x hmem hk

theorem presencePairwise_keys (st : ServerState) (h : presencePairwise st) :
    (st.onlineUsers.map Prod.fst).Nodup :=
  List.pairwise_map.mpr (h.imp (fun hab => hab.1))

theorem presencePairwise_userIds (st : ServerState) (h : presencePairwise st) :
    (st.onlineUsers.map (fun p => p.2.userId)).Nodup :=
  List.pairwise_map.mpr (h.imp (fun hab => hab.2))

theorem joinLobby_evicts (st : ServerState) (sid uid name s' : String) (u : OnlineUser)
    (hpw : presencePairwise st) (hflag : sid ∉ st.joinedFlags)
    (hs : mapGet st.onlineUsers s' = some u) (huid : u.userId = uid) (hne : s' ≠ sid) :
    mapGet (joinLobby st sid uid name).1.onlineUsers s' = none ∧
      mapGet (joinLobby st sid uid name).1.onlineUsers sid = some ⟨sid, uid, name⟩ := by
  unfold joinLobby
  rw [if_neg hflag]
  dsimp only
  constructor
  · rw [mapGet_set_ne _ sid s' _ (fun hc => hne hc.symm)]
    unfold mapGet
    rw [Option.map_eq_none']
    rw [List.find?_eq_none]
    intro x hx hbe
    have hxk : x.1 = s' := by simpa using hbe
    have hxe := mapGet_unique_entry st.onlineUsers s' u (presencePairwise_keys st hpw) hs x
      (List.mem_filter.1 hx).1 hxk
    have hcond := (List.mem_filter.1 hx).2
    rw [hxe] at hcond
    simp only [Bool.not_eq_true'] at hcond
    rw [Bool.and_eq_false_iff] at hcond
    rcases hcond with hc | hc
    · rw [huid] at hc
      simp at hc
    · simp only [bne_eq_false_iff_eq] at hc
      exact hne hc
  · exact mapGet_set_self _ _ _

def sidR2 : String := "sR2"

def nameQ : String := "nameQ"

/-- C8: after any event sequence from boot the presence registry holds at
most one entry per socket id and at most one entry per userId, and a
joinLobby from a fresh socket for a userId that already has a live
entry on another socket removes that stale mapping and installs the new
one. -/
theorem claim_C8 :
    (∀ evs : List InEvent,
      ((serverRun initialServerState evs).onlineUsers.map Prod.fst).Nodup ∧
        ((serverRun initialServerState evs).onlineUsers.map
          (fun p => p.2.userId)).Nodup) ∧
    (∀ st sid uid name s' u, presencePairwise st → sid ∉ st.joinedFlags →
      mapGet st.onlineUsers s' = some u → u.userId = uid → s' ≠ sid →
      mapGet (joinLobby st sid uid name).1.onlineUsers s' = none ∧
        mapGet (joinLobby st sid uid name).1.onlineUsers sid = some ⟨sid, uid, name⟩) := by
  constructor
  · intro evs
    have h := presence_run initialServerState evs List.Pairwise.nil
    exact ⟨presencePairwise_keys _ h, presencePairwise_userIds _ h⟩
  · intro st sid uid name s' u h1 h2 h3 h4 h5
    exact joinLobby_evicts st sid uid name s' u h1 h2 h3 h4 h5

/-- C8 witness: the sole user rejoining from a new socket evicts the old
socket's entry and installs the new one. -/
theorem claim_C8_witness :
    mapGet (joinLobby stSolo sidR2 uidR nameQ).1.onlineUsers sidR = none ∧
      mapGet (joinLobby stSolo sidR2 uidR nameQ).1.onlineUsers sidR2 =
        some ⟨sidR2, uidR, nameQ⟩ := by
  exact claim_C8.2 stSolo sidR2 uidR nameQ sidR ⟨"sR", "uR", "nameR"⟩
    (by unfold presencePairwise; decide) (by decide) (by decide) rfl (by decide)

/-! ## Challenge resolution invariant -/

/-- The challenge id is present in the challenge map. -/
def chPresentB (st : ServerState) (id : String) : Bool :=
  (mapGet st.activeChallenges id).isSome

/-- Every armed timer belongs to a live challenge: resolutions clear the
timer in the same step that removes the challenge. -/
def timersConsistent (st : ServerState) : Prop :=
  ∀ t ∈ st.timers, chPresentB st t.challengeId = true

/-- The challenge id an event would create, if any. -/
def createdChallengeId : InEvent → Option String
  | InEvent.sendChallengeEv _ _ _ fid => some fid
  | _ => none

/-- The event resolved the challenge: present before, gone after. -/
def resolvedAtB (st : ServerState) (ev : InEvent) (id : String) : Bool :=
  chPresentB st id && !(chPresentB (serverStep st ev) id)

/-- How many events of the sequence resolve the challenge id. -/
def countResolutions (st : ServerState) (id : String) : List InEvent → Nat
  | [] => 0
  | ev :: evs =>
    (if resolvedAtB st ev id then 1 else 0) + countResolutions (serverStep st ev) id evs

theorem chPresentB_congr (st st' : ServerState)
    (h : st'.activeChallenges = st.activeChallenges) (id : String) :
    chPresentB st' id = chPresentB st id := by
  unfold chPresentB
  rw [h]

theorem chPresentB_false_none (st : ServerState) (id : String)
    (h : chPresentB st id = false) : mapGet st.activeChallenges id = none := by
  unfold chPresentB at h
  cases hm : mapGet st.activeChallenges id with
  | none => rfl
  | some v =>
    rw [hm] at h
    cases h

theorem acceptChallenge_absent (st : ServerState) (sid id fromArg gid : String)
    (h : chPresentB st id = false) : acceptChallenge st sid id fromArg gid = (st, []) := by
  unfold acceptChallenge
  rw [chPresentB_false_none st id h]

theorem declineChallenge_absent (st : ServerState) (sid id fromArg : String)
    (h : chPresentB st id = false) : declineChallenge st sid id fromArg = (st, []) := by
  unfold declineChallenge
  rw [chPresentB_false_none st id h]

theorem fireChallengeTimeout_absent (st : ServerState) (id : String)
    (hT : timersConsistent st) (h : chPresentB st id = false) :
    fireChallengeTimeout st id = (st, []) := by
  unfold fireChallengeTimeout
  cases hf : st.timers.find? (fun t => t.challengeId == id) with
  | none => rfl
  | some t =>
    exfalso
    have hmem := List.mem_of_find?_eq_some hf
    have hkey : t.challengeId = id := by simpa using List.find?_some hf
    have hpres := hT t hmem
    rw [hkey, h] at hpres
    cases hpres

theorem step_preserves_absent (st : ServerState) (ev : InEvent) (id : String)
    (h : chPresentB st id = false) (hev : createdChallengeId ev ≠ some id) :
    chPresentB (serverStep st ev) id = false := by
  have habs : mapGet st.activeChallenges id = none := chPresentB_false_none st id h
  cases ev with
  | joinLobbyEv sid u n =>
    exact (chPresentB_congr st _ (joinLobby_frame st sid u n).1 id).trans h
  | sendChallengeEv sid toSid tn fid =>
    have hne : fid ≠ id := fun hc => hev (by rw [hc]; rfl)
    show chPresentB (sendChallenge st sid toSid tn fid).1 id = false
    unfold sendChallenge
    cases h1 : mapGet st.onlineUsers sid with
    | none => exact h
    | some challenger =>
      cases h2 : mapGet st.onlineUsers toSid with
      | none => exact h
      | some opponent =>
        unfold chPresentB
        dsimp only
        rw [mapGet_set_ne _ fid id _ hne, habs]
        rfl
  | acceptChallengeEv sid chId fromArg gid =>
    show chPresentB (acceptChallenge st sid chId fromArg gid).1 id = false
    unfold acceptChallenge
    cases h1 : mapGet st.activeChallenges chId with
    | none => exact h
    | some ch =>
      unfold chPresentB
      dsimp only
      by_cases hcc : chId = id
      · rw [hcc, mapGet_delete_self]
        rfl
      · rw [mapGet_delete_ne _ chId id hcc, habs]
        rfl
  | declineChallengeEv sid chId fromArg =>
    show chPresentB (declineChallenge st sid chId fromArg).1 id = false
    unfold declineChallenge
    cases h1 : mapGet st.activeChallenges chId with
    | none => exact h
    | some ch =>
      unfold chPresentB
      dsimp only
      by_cases hcc : chId = id
      · rw [hcc, mapGet_delete_self]
        rfl
      · rw [mapGet_delete_ne _ chId id hcc, habs]
        rfl
  | challengeTimeoutEv chId =>
    show chPresentB (fireChallengeTimeout st chId).1 id = false
    unfold fireChallengeTimeout
    cases hf : st.timers.find? (fun t => t.challengeId == chId) with
    | none => exact h
    | some t =>
      unfold chPresentB
      dsimp only
      by_cases hcc : chId = id
      · rw [hcc, mapGet_delete_self]
        rfl
      · rw [mapGet_delete_ne _ chId id hcc, habs]
        rfl
  | joinGameEv sid gameId userId =>
    exact (chPresentB_congr st _ (joinGame_frame st sid gameId userId).2.2.1 id).trans h
  | makeMoveEv sid gameId col =>
    exact (chPresentB_congr st _ (makeMove_frame st sid gameId col).2.2.1 id).trans h
  | forfeitGameEv sid gameId =>
    exact (chPresentB_congr st _ (forfeitGame_frame st sid gameId).2.2.1 id).trans h
  | disconnectEv sid =>
    show chPresentB (disconnect st sid).1 id = false
    unfold disconnect
    cases h1 : mapGet st.onlineUsers sid with
    | none => exact h
    | some user =>
      unfold chPresentB
      dsimp only
      rw [mapGet_filter_none _ _ id habs]
      rfl

theorem timersConsistent_of_frames (st st' : ServerState)
    (hch : st'.activeChallenges = st.activeChallenges) (ht : st'.timers = st.timers)
    (h : timersConsistent st) : timersConsistent st' := by
  intro t hmem
  rw [ht] at hmem
  rw [chPresentB_congr st st' hch]
  exact h t hmem

theorem timersConsistent_step (st : ServerState) (ev : InEvent)
    (h : timersConsistent st) : timersConsistent (serverStep st ev) := by
  cases ev with
  | joinLobbyEv sid u n =>
    exact timersConsistent_of_frames st _ (joinLobby_frame st sid u n).1
      (joinLobby_frame st sid u n).2.1 h
  | sendChallengeEv sid toSid tn fid =>
    show timersConsistent (sendChallenge st sid toSid tn fid).1
    unfold sendChallenge
    cases h1 : mapGet st.onlineUsers sid with
    | none => exact h
    | some challenger =>
      cases h2 : mapGet st.onlineUsers toSid with
      | none => exact h
      | some opponent =>
        intro t hmem
        unfold chPresentB
        dsimp only at hmem ⊢
        rcases List.mem_cons.1 hmem with heq | hmem'
        · rw [heq]
          dsimp only
          rw [mapGet_set_self]
          rfl
        · by_cases hcc : t.challengeId = fid
          · rw [hcc, mapGet_set_self]
            rfl
          · rw [mapGet_set_ne _ fid t.challengeId _ (fun hc => hcc hc.symm)]
            exact h t hmem'
  | acceptChallengeEv sid chId fromArg gid =>
    show timersConsistent (acceptChallenge st sid chId fromArg gid).1
    unfold acceptChallenge
    cases h1 : mapGet st.activeChallenges chId with
    | none => exact h
    | some ch =>
      intro t hmem
      unfold chPresentB
      dsimp only at hmem ⊢
      obtain ⟨hmem', hcond⟩ := List.mem_filter.1 hmem
      have hne : ¬ (t.challengeId = chId) := by simpa using hcond
      rw [mapGet_delete_ne _ chId t.challengeId (fun hc => hne hc.symm)]
      exact h t hmem'
  | declineChallengeEv sid chId fromArg =>
    show timersConsistent (declineChallenge st sid chId fromArg).1
    unfold declineChallenge
    cases h1 : mapGet st.activeChallenges chId with
    | none => exact h
    | some ch =>
      intro t hmem
      unfold chPresentB
      dsimp only at hmem ⊢
      obtain ⟨hmem', hcond⟩ := List.mem_filter.1 hmem
      have hne : ¬ (t.challengeId = chId) := by simpa using hcond
      rw [mapGet_delete_ne _ chId t.challengeId (fun hc => hne hc.symm)]
      exact h t hmem'
  | challengeTimeoutEv chId =>
    show timersConsistent (fireChallengeTimeout st chId).1
    unfold fireChallengeTimeout
    cases hf : st.timers.find? (fun t => t.challengeId == chId) with
    | none => exact h
    | some t0 =>
      intro t hmem
      unfold chPresentB
      dsimp only at hmem ⊢
      obtain ⟨hmem', hcond⟩ := List.mem_filter.1 hmem
      have hne : ¬ (t.challengeId = chId) := by simpa using hcond
      rw [mapGet_delete_ne _ chId t.challengeId (fun hc => hne hc.symm)]
      exact h t hmem'
  | joinGameEv sid gameId userId =>
    exact timersConsistent_of_frames st _ (joinGame_frame st sid gameId userId).2.2.1
      (joinGame_frame st sid gameId userId).2.2.2 h
  | makeMoveEv sid gameId col =>
    exact timersConsistent_of_frames st _ (makeMove_frame st sid gameId col).2.2.1
      (makeMove_frame st sid gameId col).2.2.2 h
  | forfeitGameEv sid gameId =>
    exact timersConsistent_of_frames st _ (forfeitGame_frame st sid gameId).2.2.1
      (forfeitGame_frame st sid gameId).2.2.2 h
  | disconnectEv sid =>
    show timersConsistent (disconnect st sid).1
    unfold disconnect
    cases h1 : mapGet st.onlineUsers sid with
    | none => exact h
    | some user =>
      intro t hmem
      unfold chPresentB
      dsimp only at hmem ⊢
      obtain ⟨hmem', hcond⟩ := List.mem_filter.1 hmem
      have hpres := h t hmem'
      unfold chPresentB at hpres
      obtain ⟨p, hpmem, hpk⟩ := (mapGet_isSome_iff _ _).1 hpres
      apply (mapGet_isSome_iff _ _).2
      refine ⟨p, ?_, hpk⟩
      apply List.mem_filter.2
      refine ⟨hpmem, ?_⟩
      by_cases hparty : (p.2.fromSocket == sid || p.2.toSocket == sid) = true
      · exfalso
        have hany : (st.activeChallenges.filter
            (fun q => q.2.fromSocket == sid || q.2.toSocket == sid)).any
              (fun q => q.1 == t.challengeId) = true := by
          apply List.any_eq_true.2
          exact ⟨p, List.mem_filter.2 ⟨hpmem, hparty⟩, by simp [hpk]⟩
        rw [hany] at hcond
        cases hcond
      · simpa using hparty

theorem timersConsistent_run (st : ServerState) (evs : List InEvent)
    (h : timersConsistent st) : timersConsistent (serverRun st evs) := by
  induction evs generalizing st with
  | nil => exact h
  | cons ev evs ih =>
    unfold serverRun
    rw [List.foldl_cons]
    exact ih (serverStep st ev) (timersConsistent_step st ev h)

theorem countResolutions_absent (st : ServerState) (id : String) (evs : List InEvent)
    (h : chPresentB st id = false)
    (hev : ∀ ev ∈ evs, createdChallengeId ev ≠ some id) :
    countResolutions st id evs = 0 := by
  induction evs generalizing st with
  | nil => rfl
  | cons ev evs ih =>
    unfold countResolutions
    have hres : resolvedAtB st ev id = false := by
      unfold resolvedAtB
      rw [h]
      rfl
    rw [hres]
    rw [ih (serverStep st ev)
      (step_preserves_absent st ev id h (hev ev (List.mem_cons_self ev evs)))
      (fun e he => hev e (List.mem_cons_of_mem ev he))]
    simp

theorem countResolutions_le_one (st : ServerState) (id : String) (evs : List InEvent)
    (hev : ∀ ev ∈ evs, createdChallengeId ev ≠ some id) :
    countResolutions st id evs ≤ 1 := by
  induction evs generalizing st with
  | nil => exact Nat.zero_le 1
  | cons ev evs ih =>
    unfold countResolutions
    cases hres : resolvedAtB st ev id with
    | false =>
      simp only [Bool.false_eq_true, if_false, Nat.zero_add]
      exact ih (serverStep st ev) (fun e he => hev e (List.mem_cons_of_mem ev he))
    | true =>
      have habs : chPresentB (serverStep st ev) id = false := by
        unfold resolvedAtB at hres
        rw [Bool.and_eq_true] at hres
        have := hres.2
        rw [Bool.not_eq_true'] at this
        exact this
      rw [countResolutions_absent (serverStep st ev) id evs habs
        (fun e he => hev e (List.mem_cons_of_mem ev he))]
      simp

/-- C4: on every state reachable from boot each armed challenge timer
still has its challenge; once a challenge id is gone from the map an
acceptChallenge or declineChallenge naming it is a complete no-op, and
its timeout can no longer fire (the timer was cleared with the
challenge); and along any event sequence that does not mint the same
challenge id again, at most one event resolves the challenge. -/
theorem claim_C4 :
    (∀ evs : List InEvent, timersConsistent (serverRun initialServerState evs)) ∧
    (∀ st sid id fromArg gid, chPresentB st id = false →
      acceptChallenge st sid id fromArg gid = (st, [])) ∧
    (∀ st sid id fromArg, chPresentB st id = false →
      declineChallenge st sid id fromArg = (st, [])) ∧
    (∀ st id, timersConsistent st → chPresentB st id = false →
      fireChallengeTimeout st id = (st, [])) ∧
    (∀ st id evs, (∀ ev ∈ evs, createdChallengeId ev ≠ some id) →
      countResolutions st id evs ≤ 1) := by
  refine ⟨?_, ?_, ?_, ?_, ?_⟩
  · intro evs
    exact timersConsistent_run initialServerState evs
      (fun t ht => absurd ht (List.not_mem_nil t))
  · intro st sid id fromArg gid h
    exact acceptChallenge_absent st sid id fromArg gid h
  · intro st sid id fromArg h
    exact declineChallenge_absent st sid id fromArg h
  · intro st id hT h
    exact fireChallengeTimeout_absent st id hT h
  · intro st id evs hev
    exact countResolutions_le_one st id evs hev

/-- C4 witness: accepting an absent challenge id is a no-op, and over a
trace that accepts, declines and times out the same pending challenge,
only one of the three resolves it. -/
theorem claim_C4_witness :
    acceptChallenge initialServerState sidR cid1 sidY gid1 = (initialServerState, []) ∧
      countResolutions stPending cid1
        [InEvent.acceptChallengeEv sidY cid1 sidR gid1,
          InEvent.declineChallengeEv sidY cid1 sidR,
          InEvent.challengeTimeoutEv cid1] ≤ 1 := by
  refine ⟨claim_C4.2.1 initialServerState sidR cid1 sidY gid1 rfl,
    claim_C4.2.2.2.2 stPending cid1 _ (by decide)⟩
